import Mathlib

/-!
The region geometry engine of almost-ambilight.

A shallow embedding of `src/point-inside-strategy.js`, `src/processors/image/polygon.js`,
`src/processors/image/grid.js` and `src/processors/image/area-parser.js`.

JavaScript numbers are modelled by rationals (`ℚ`).  Every comparison of the source is kept
as it is written; the values `undefined` and `NaN` are modelled by `none` where the source
can produce them.

The arithmetic of the geometry comes in two readings.  The definitions that carry the name
of a source function unchanged compute in exact arithmetic.  The definitions whose name ends
in `Rounded` take a rounding `rnd : ℚ → ℚ` and apply it to the result of every addition,
subtraction, multiplication and division of the source, in the order in which the source
evaluates them; `Math.min`, `Math.max` and the comparisons are exact on doubles and stay
unrounded.  With `rnd := id` they are the exact definitions (`prepareStrategyRounded_id`,
`grid_rounded_id`); with `rnd := roundDouble` they are the double arithmetic of JavaScript on
finite values.  Overflow to an infinity is outside both readings.
-/

namespace AlmostAmbilight

/-! ## Data model -/

/-- A point `{x, y}` of `point.js`. -/
structure Point where
  x : ℚ
  y : ℚ
deriving DecidableEq

/-- The array `Polygon.#coordinates`, always of length four, in the order
`[topLeft, topRight, bottomRight, bottomLeft]` (indices 0, 1, 2, 3). -/
structure Coordinates where
  topLeft : Point
  topRight : Point
  bottomRight : Point
  bottomLeft : Point
deriving DecidableEq

/-- The four corners as the array the source iterates over with `reduce`. -/
def Coordinates.toList (c : Coordinates) : List Point :=
  [c.topLeft, c.topRight, c.bottomRight, c.bottomLeft]

/-- Class `FunctionParameters`.  A vertical segment carries `isVertical` and `yValue` only:
its `slope` and `base` are `undefined` (`none`).  A non-vertical segment carries `slope`
and `base`; its `yValue` is `undefined` and is never read (the field holds 0 here). -/
structure FunctionParameters where
  isVertical : Bool
  yValue : ℚ
  slope : Option ℚ
  base : Option ℚ
  a : Point
  b : Point
deriving DecidableEq

/-- One entry `{min, max}` of `PointInsideStrategy.#boundaries`. -/
structure Boundaries where
  min : ℚ
  max : ℚ
deriving DecidableEq

/-- The value `{min: -1, max: -1}` returned for a row without intersection. -/
def uncovered : Boundaries := ⟨-1, -1⟩

/-- One element `{min, max, y}` of the array returned by `getRegion`. -/
structure Row where
  min : ℚ
  max : ℚ
  y : ℕ
deriving DecidableEq

/-- The private fields of `PointInsideStrategy`.  The polygon reference is not stored:
the operations that read `this.#polygon.coordinates` take the coordinates as an argument.
The four extrema are unset until `prepareStrategy` runs and are never read before. -/
structure PointInsideStrategy where
  minX : ℚ
  maxX : ℚ
  minY : ℚ
  maxY : ℚ
  boundaries : List Boundaries
  params : List FunctionParameters
deriving DecidableEq

/-- A strategy as `new PointInsideStrategy()` leaves it: `#boundaries = []`, `#params = []`. -/
def PointInsideStrategy.fresh : PointInsideStrategy :=
  { minX := 0, maxX := 0, minY := 0, maxY := 0, boundaries := [], params := [] }

/-! ## point-inside-strategy.js -/

/-- Method `#calculateMinMaxCoordinates`: four `reduce` calls over the corners, seeded with
640, 480, 0 and 0. -/
def calculateMinMaxCoordinates (s : PointInsideStrategy) (polygon : Coordinates) :
    PointInsideStrategy :=
  { s with
    minX := polygon.toList.foldl
      (fun (previous : ℚ) (current : Point) => Min.min previous current.x) 640
    minY := polygon.toList.foldl
      (fun (previous : ℚ) (current : Point) => Min.min previous current.y) 480
    maxX := polygon.toList.foldl
      (fun (previous : ℚ) (current : Point) => Max.max previous current.x) 0
    maxY := polygon.toList.foldl
      (fun (previous : ℚ) (current : Point) => Max.max previous current.y) 0 }

/-- Method `#buildFunctionParameters(a, b)`. -/
def buildFunctionParameters (a b : Point) : FunctionParameters :=
  if a.x - b.x = 0 then
    { isVertical := true, yValue := a.x, slope := none, base := none, a := a, b := b }
  else
    let slope := (a.y - b.y) / (a.x - b.x)
    let base := a.y - slope * a.x
    { isVertical := false, yValue := 0, slope := some slope, base := some base, a := a, b := b }

/-- Method `#buildAllFunctionParameters`: the segments (0,1), (0,3), (1,2), (3,2). -/
def buildAllFunctionParameters (polygon : Coordinates) : List FunctionParameters :=
  [ buildFunctionParameters polygon.topLeft polygon.topRight,
    buildFunctionParameters polygon.topLeft polygon.bottomLeft,
    buildFunctionParameters polygon.topRight polygon.bottomRight,
    buildFunctionParameters polygon.bottomLeft polygon.bottomRight ]

/-- The `for (let parameters of params)` loop of `#calculateBoundaries`, with the array
`results` as accumulator.  `continue` moves to the next segment, `break` returns the
accumulator.  With an `undefined` slope the comparison `slope === 0` is false and
`(y - base) / slope` is `NaN`, which fails both range comparisons: nothing is pushed. -/
def scanSegments (minX maxX y : ℚ) : List FunctionParameters → List ℚ → List ℚ
  | [], results => results
  | parameters :: rest, results =>
    if (parameters.a.y < y ∧ parameters.b.y < y) ∨ (parameters.a.y > y ∧ parameters.b.y > y) then
      scanSegments minX maxX y rest results
    else if parameters.isVertical = true ∧ parameters.a.y ≤ y ∧ parameters.b.y ≥ y then
      scanSegments minX maxX y rest (results ++ [parameters.yValue])
    else if parameters.slope = some 0 then
      if parameters.base = some y then
        results ++ [parameters.a.x, parameters.b.x]
      else
        scanSegments minX maxX y rest results
    else
      match parameters.slope, parameters.base with
      | some slope, some base =>
        let result := (y - base) / slope
        if result ≥ minX ∧ result ≤ maxX then
          scanSegments minX maxX y rest (results ++ [result])
        else
          scanSegments minX maxX y rest results
      | _, _ => scanSegments minX maxX y rest results

/-- Method `#calculateBoundaries(params, y)`.  `Math.min(...results)` and
`Math.max(...results)` are taken over a non-empty array. -/
def calculateBoundaries (s : PointInsideStrategy) (params : List FunctionParameters) (y : ℚ) :
    Boundaries :=
  if y < s.minY ∨ y > s.maxY then
    { min := -1, max := -1 }
  else
    match scanSegments s.minX s.maxX y params [] with
    | [] => { min := -1, max := -1 }
    | r :: results => { min := results.foldl Min.min r, max := results.foldl Max.max r }

/-- Method `#calculateAllBoundaries(params)`: pushes one entry for y = 0, ..., 479 onto
`#boundaries`. -/
def calculateAllBoundaries (s : PointInsideStrategy) (params : List FunctionParameters) :
    PointInsideStrategy :=
  (List.range 480).foldl
    (fun (t : PointInsideStrategy) (y : ℕ) =>
      { t with boundaries := t.boundaries ++ [calculateBoundaries t params (y : ℚ)] }) s

/-- Method `prepareStrategy()`, reading the coordinates of the attached polygon. -/
def PointInsideStrategy.prepareStrategy (s : PointInsideStrategy) (polygon : Coordinates) :
    PointInsideStrategy :=
  let s1 := { s with boundaries := [] }
  let s2 := calculateMinMaxCoordinates s1 polygon
  let s3 := { s2 with params := buildAllFunctionParameters polygon }
  calculateAllBoundaries s3 s3.params

/-- The array read `this.#boundaries[point.y]`: an element when `point.y` is an integer index
inside the array, `undefined` (`none`) otherwise. -/
def boundariesAt (boundaries : List Boundaries) (y : ℚ) : Option Boundaries :=
  if y.den = 1 ∧ 0 ≤ y.num then boundaries[y.num.toNat]? else none

/-- Method `isPointInside(point)`.  Every stored entry is an object and therefore truthy. -/
def PointInsideStrategy.isPointInside (s : PointInsideStrategy) (point : Point) : Bool :=
  match boundariesAt s.boundaries point.y with
  | some boundaries => decide (boundaries.min ≤ point.x ∧ point.x ≤ boundaries.max)
  | none => false

/-- Method `getRegion()`: tag each entry with its index, keep those that differ from
`{min: -1, max: -1}`. -/
def PointInsideStrategy.getRegion (s : PointInsideStrategy) : List Row :=
  (s.boundaries.enum.map
      (fun (ib : ℕ × Boundaries) => ({ min := ib.2.min, max := ib.2.max, y := ib.1 } : Row))).filter
    (fun (boundaries : Row) => decide (boundaries.min ≠ -1 ∨ boundaries.max ≠ -1))

/-! ## processors/image/polygon.js -/

/-- Class `Polygon`.  The field `isPointInsideStrategy` is `none` while it holds the initial
object `{isPointInside: () => false, prepareStrategy: () => {}, getRegion: () => []}` and
`some s` once a `PointInsideStrategy` has been attached. -/
structure Polygon where
  coordinates : Coordinates
  isPointInsideStrategy : Option PointInsideStrategy
deriving DecidableEq

/-- A polygon as `new Polygon()` leaves it: four corners at the origin, initial strategy. -/
def Polygon.fresh : Polygon :=
  { coordinates := ⟨⟨0, 0⟩, ⟨0, 0⟩, ⟨0, 0⟩, ⟨0, 0⟩⟩, isPointInsideStrategy := none }

/-- Method `Polygon.isPointInside(point)`. -/
def Polygon.isPointInside (p : Polygon) (point : Point) : Bool :=
  match p.isPointInsideStrategy with
  | some s => s.isPointInside point
  | none => false

/-- Method `Polygon.getRegion()`. -/
def Polygon.getRegion (p : Polygon) : List Row :=
  match p.isPointInsideStrategy with
  | some s => s.getRegion
  | none => []

/-- Setter `set coordinates({topLeft, topRight, bottomRight, bottomLeft})`: stores the four
corners, then calls `prepareStrategy()` on the current strategy. -/
def Polygon.setCoordinates (p : Polygon) (c : Coordinates) : Polygon :=
  { coordinates := c
    isPointInsideStrategy :=
      p.isPointInsideStrategy.map (fun (s : PointInsideStrategy) => s.prepareStrategy c) }

/-- Setter `set strategy(strategy)`: `strategy.polygon = this` runs `prepareStrategy()` on the
polygon, then the strategy is stored. -/
def Polygon.setStrategy (p : Polygon) (strategy : PointInsideStrategy) : Polygon :=
  { p with isPointInsideStrategy := some (strategy.prepareStrategy p.coordinates) }

/-! ## processors/image/grid.js -/

/-- The object `{start, end}` returned by `#calculateCenterCoordinates`. -/
structure CenterCoordinates where
  start : Point
  finish : Point
deriving DecidableEq

/-- One end of the center axis, as computed in `#calculateCenterCoordinates` for one side.
On the non-vertical branch `slope` and `base` are the defined values stored by
`#buildFunctionParameters`. -/
def centerOf (params : FunctionParameters) : Point :=
  if params.isVertical = true then
    { x := params.yValue, y := (params.a.y + params.b.y) / 2 }
  else
    let x := (params.a.x + params.b.x) / 2
    { x := x, y := params.base.getD 0 + params.slope.getD 0 * x }

/-- Method `#calculateCenterCoordinates(aParams, bParams)`. -/
def calculateCenterCoordinates (aParams bParams : FunctionParameters) : CenterCoordinates :=
  { start := centerOf aParams, finish := centerOf bParams }

/-- The body of both sub-area loops after the corners are computed: `new Polygon()`, set the
coordinates, attach a `new PointInsideStrategy()`. -/
def subPolygon (c : Coordinates) : Polygon :=
  (Polygon.fresh.setCoordinates c).setStrategy PointInsideStrategy.fresh

/-- Method `#initHorizontalSubAreas(tL, tR, bR, bL, count)`. -/
def initHorizontalSubAreas (tL tR bR bL : Point) (count : ℕ) : List Polygon :=
  (List.range count).map (fun (i : ℕ) =>
    subPolygon
      { topLeft :=
          { x := tL.x + ((tR.x - tL.x) / count) * i, y := tL.y + ((tR.y - tL.y) / count) * i }
        topRight :=
          { x := tL.x + ((tR.x - tL.x) / count) * (i + 1)
            y := tL.y + ((tR.y - tL.y) / count) * (i + 1) }
        bottomRight :=
          { x := bL.x + ((bR.x - bL.x) / count) * (i + 1)
            y := bL.y + ((bR.y - bL.y) / count) * (i + 1) }
        bottomLeft :=
          { x := bL.x + ((bR.x - bL.x) / count) * i, y := bL.y + ((bR.y - bL.y) / count) * i } })

/-- Method `#initVerticalSubAreas(tL, tR, bR, bL, count)`. -/
def initVerticalSubAreas (tL tR bR bL : Point) (count : ℕ) : List Polygon :=
  (List.range count).map (fun (i : ℕ) =>
    subPolygon
      { topLeft :=
          { x := tL.x + ((bL.x - tL.x) / count) * i, y := tL.y + ((bL.y - tL.y) / count) * i }
        topRight :=
          { x := tR.x + ((bR.x - tR.x) / count) * i, y := tR.y + ((bR.y - tR.y) / count) * i }
        bottomRight :=
          { x := tR.x + ((bR.x - tR.x) / count) * (i + 1)
            y := tR.y + ((bR.y - tR.y) / count) * (i + 1) }
        bottomLeft :=
          { x := tL.x + ((bL.x - tL.x) / count) * (i + 1)
            y := tL.y + ((bL.y - tL.y) / count) * (i + 1) } })

/-- Class `Grid`. -/
structure Grid where
  topPolygons : List Polygon
  bottomPolygons : List Polygon
  leftPolygons : List Polygon
  rightPolygons : List Polygon
  areaPolygon : Polygon
  verticalSubdivisions : ℕ
  horizontalSubdivisions : ℕ
deriving DecidableEq

/-- Method `#initSubAreas(verticalSubdivisions, horizontalSubdivisions)`.  The result is
`none` where the source throws a `TypeError`: when `strategy.params` does not hold the four
entries `params[0]`, ..., `params[3]`. -/
def Grid.initSubAreas (g : Grid) (verticalSubdivisions horizontalSubdivisions : ℕ) :
    Option Grid :=
  match g.areaPolygon.isPointInsideStrategy with
  | none => none
  | some strategy =>
    match strategy.params[0]?, strategy.params[1]?, strategy.params[2]?, strategy.params[3]? with
    | some p0, some p1, some p2, some p3 =>
      let horizontalCenter := calculateCenterCoordinates p0 p3
      let verticalCenter := calculateCenterCoordinates p1 p2
      let c := g.areaPolygon.coordinates
      some { g with
        topPolygons := initHorizontalSubAreas c.topLeft c.topRight verticalCenter.finish
          verticalCenter.start horizontalSubdivisions
        bottomPolygons := initHorizontalSubAreas verticalCenter.start verticalCenter.finish
          c.bottomRight c.bottomLeft horizontalSubdivisions
        leftPolygons := initVerticalSubAreas c.topLeft horizontalCenter.start
          horizontalCenter.finish c.bottomLeft verticalSubdivisions
        rightPolygons := initVerticalSubAreas horizontalCenter.start c.topRight
          c.bottomRight horizontalCenter.finish verticalSubdivisions }
    | _, _, _, _ => none

/-- The constructor `new Grid(verticalSubdivisions, horizontalSubdivisions)`: stores the two
counts, then `#initGrid` runs `#initMainArea` and `#initSubAreas`. -/
def Grid.create (verticalSubdivisions horizontalSubdivisions : ℕ) : Option Grid :=
  Grid.initSubAreas
    { topPolygons := [], bottomPolygons := [], leftPolygons := [], rightPolygons := []
      areaPolygon := Polygon.fresh.setStrategy PointInsideStrategy.fresh
      verticalSubdivisions := verticalSubdivisions
      horizontalSubdivisions := horizontalSubdivisions }
    verticalSubdivisions horizontalSubdivisions

/-- Setter `set coordinates(coordinates)` of `Grid`. -/
def Grid.setCoordinates (g : Grid) (coordinates : Coordinates) : Option Grid :=
  Grid.initSubAreas { g with areaPolygon := g.areaPolygon.setCoordinates coordinates }
    g.verticalSubdivisions g.horizontalSubdivisions

/-- Getter `get coordinates()` of `Grid`. -/
def Grid.coordinates (g : Grid) : Coordinates :=
  g.areaPolygon.coordinates

/-- Method `Grid.isPointInside(point)`. -/
def Grid.isPointInside (g : Grid) (point : Point) : Bool :=
  g.areaPolygon.isPointInside point

/-- The object `{main, top, bottom, left, right}` returned by `getRegions`. -/
structure Regions where
  main : List Row
  top : List (List Row)
  bottom : List (List Row)
  left : List (List Row)
  right : List (List Row)
deriving DecidableEq

/-- Method `getRegions()`. -/
def Grid.getRegions (g : Grid) : Regions :=
  { main := g.areaPolygon.getRegion
    top := g.topPolygons.map Polygon.getRegion
    bottom := g.bottomPolygons.map Polygon.getRegion
    left := g.leftPolygons.map Polygon.getRegion
    right := g.rightPolygons.map Polygon.getRegion }

/-! ## processors/image/area-parser.js -/

/-- A JavaScript number produced by `AreaParser.process`: a finite value, `NaN`, or a signed
infinity. -/
inductive JsNumber where
  | finite (q : ℚ)
  | nan
  | infinity (negative : Bool)
deriving DecidableEq

/-- The object `{r, g, b}` returned by `AreaParser.process`. -/
structure Color where
  r : JsNumber
  g : JsNumber
  b : JsNumber
deriving DecidableEq

/-- Class `AreaParser`. -/
structure AreaParser where
  boundaries : List Row
deriving DecidableEq

/-- The read `pixels[index]`: `undefined` (`none`) outside the buffer. -/
def pixelAt (pixels : List ℕ) (index : ℤ) : Option ℕ :=
  if 0 ≤ index then pixels[index.toNat]? else none

/-- The values taken by `i` in `for (let i = Math.floor(min); i <= max; i++)`, in order. -/
def sampledColumns (boundaries : Row) : List ℤ :=
  (List.range (⌊boundaries.max⌋ + 1 - ⌊boundaries.min⌋).toNat).map
    (fun (k : ℕ) => ⌊boundaries.min⌋ + (k : ℤ))

/-- The buffer indices `index = start + i * 4` with `start = 640 * 4 * boundaries.y`, in the
order in which `process` visits them. -/
def sampledIndices (boundaries : List Row) : List ℤ :=
  boundaries.flatMap (fun (row : Row) =>
    (sampledColumns row).map (fun (i : ℤ) => 640 * 4 * (row.y : ℤ) + i * 4))

/-- The reducer `(sum, current) => current + sum`, where `current` may be `undefined`. -/
def addCurrent (sum : JsNumber) (current : Option ℕ) : JsNumber :=
  match current, sum with
  | some v, JsNumber.finite q => JsNumber.finite ((v : ℚ) + q)
  | some _, JsNumber.infinity negative => JsNumber.infinity negative
  | _, _ => JsNumber.nan

/-- The quotient `sum / length` of a number by an array length. -/
def divideByLength (sum : JsNumber) (length : ℕ) : JsNumber :=
  match sum with
  | JsNumber.finite q =>
    if length = 0 then
      if q = 0 then JsNumber.nan else JsNumber.infinity (decide (q < 0))
    else JsNumber.finite (q / (length : ℚ))
  | other => other

/-- The expression `xs.reduce((sum, current) => current + sum, 0) / xs.length`. -/
def average (xs : List (Option ℕ)) : JsNumber :=
  divideByLength (xs.foldl addCurrent (JsNumber.finite 0)) xs.length

/-- Method `AreaParser.process(pixels)`: the arrays `r`, `g`, `b` receive `pixels[index]`,
`pixels[index + 1]`, `pixels[index + 2]` for every visited index. -/
def AreaParser.process (parser : AreaParser) (pixels : List ℕ) : Color :=
  let indices := sampledIndices parser.boundaries
  { r := average (indices.map (fun (index : ℤ) => pixelAt pixels index))
    g := average (indices.map (fun (index : ℤ) => pixelAt pixels (index + 1)))
    b := average (indices.map (fun (index : ℤ) => pixelAt pixels (index + 2))) }

/-! ## image-processor.js -/

/-- The geometry fields of class `ImageProcessor` once `init` has run: the grid `#area` and
the four parser lists.  The video element, the canvases and the frame loop are outside the
model. -/
structure ImageProcessor where
  area : Grid
  topParsers : List AreaParser
  bottomParsers : List AreaParser
  leftParsers : List AreaParser
  rightParsers : List AreaParser
deriving DecidableEq

/-- Method `#prepareParsers()`: one `new AreaParser(region)` per region of each band. -/
def ImageProcessor.prepareParsers (processor : ImageProcessor) : ImageProcessor :=
  let regions := processor.area.getRegions
  { processor with
    topParsers := regions.top.map (fun (region : List Row) => AreaParser.mk region)
    bottomParsers := regions.bottom.map (fun (region : List Row) => AreaParser.mk region)
    leftParsers := regions.left.map (fun (region : List Row) => AreaParser.mk region)
    rightParsers := regions.right.map (fun (region : List Row) => AreaParser.mk region) }

/-- The last two statements of `init`: `this.#area = new Grid(1, 0)` and
`this.#prepareParsers()`. -/
def ImageProcessor.init : Option ImageProcessor :=
  (Grid.create 1 0).map (fun (g : Grid) =>
    ImageProcessor.prepareParsers
      { area := g, topParsers := [], bottomParsers := [], leftParsers := [],
        rightParsers := [] })

/-- Setter `set area({topLeft, topRight, bottomRight, bottomLeft})`. -/
def ImageProcessor.setArea (processor : ImageProcessor) (area : Coordinates) :
    Option ImageProcessor :=
  (processor.area.setCoordinates area).map (fun (g : Grid) =>
    ImageProcessor.prepareParsers { processor with area := g })

/-- Getter `get area()`: the object built from `coordinates[0]`, ..., `coordinates[3]`. -/
def ImageProcessor.getArea (processor : ImageProcessor) : Coordinates :=
  { topLeft := processor.area.coordinates.topLeft
    topRight := processor.area.coordinates.topRight
    bottomRight := processor.area.coordinates.bottomRight
    bottomLeft := processor.area.coordinates.bottomLeft }

/-- The object `{top, bottom, left, right}` returned by `read`. -/
structure BandColors where
  top : List Color
  bottom : List Color
  left : List Color
  right : List Color
deriving DecidableEq

/-- Method `read()`, given the pixel data of the current frame. -/
def ImageProcessor.read (processor : ImageProcessor) (data : List ℕ) : BandColors :=
  { top := processor.topParsers.map (fun (parser : AreaParser) => parser.process data)
    bottom := processor.bottomParsers.map (fun (parser : AreaParser) => parser.process data)
    left := processor.leftParsers.map (fun (parser : AreaParser) => parser.process data)
    right := processor.rightParsers.map (fun (parser : AreaParser) => parser.process data) }

/-! ## Vocabulary of the specification -/

/-- Row `y` of the table that `prepareStrategy` builds for the corners `c`: the value of
`#calculateBoundaries(params, y)` once the extrema and the segment parameters of `c` are
in place. -/
def tableRow (c : Coordinates) (y : ℕ) : Boundaries :=
  calculateBoundaries (calculateMinMaxCoordinates PointInsideStrategy.fresh c)
    (buildAllFunctionParameters c) (y : ℚ)

/-- The axis-aligned rectangle with corners (x0,y0), (x1,y0), (x1,y1), (x0,y1). -/
def rectangle (x0 y0 x1 y1 : ℚ) : Coordinates :=
  { topLeft := ⟨x0, y0⟩, topRight := ⟨x1, y0⟩, bottomRight := ⟨x1, y1⟩, bottomLeft := ⟨x0, y1⟩ }

/-- The quadrilateral whose four corners all equal `c`. -/
def degenerate (c : Point) : Coordinates :=
  { topLeft := c, topRight := c, bottomRight := c, bottomLeft := c }

/-- Twice the signed area of the triangle `a`, `b`, `p`. -/
def cross (a b p : Point) : ℚ :=
  (b.x - a.x) * (p.y - a.y) - (b.y - a.y) * (p.x - a.x)

/-- The corners, taken in the cyclic order topLeft, topRight, bottomRight, bottomLeft, turn
in the same direction at every corner: the quadrilateral is strictly convex. -/
def Coordinates.convex (c : Coordinates) : Prop :=
  (0 < cross c.topLeft c.topRight c.bottomRight ∧ 0 < cross c.topRight c.bottomRight c.bottomLeft ∧
    0 < cross c.bottomRight c.bottomLeft c.topLeft ∧ 0 < cross c.bottomLeft c.topLeft c.topRight) ∨
  (cross c.topLeft c.topRight c.bottomRight < 0 ∧ cross c.topRight c.bottomRight c.bottomLeft < 0 ∧
    cross c.bottomRight c.bottomLeft c.topLeft < 0 ∧ cross c.bottomLeft c.topLeft c.topRight < 0)

/-- Every corner lies inside the 640x480 canvas. -/
def Coordinates.insideCanvas (c : Coordinates) : Prop :=
  ∀ q ∈ c.toList, 0 ≤ q.x ∧ q.x ≤ 640 ∧ 0 ≤ q.y ∧ q.y ≤ 480

/-- The point `p` lies in the closed quadrilateral: it is on the same side of (or on) each
of the four edges taken in cyclic order. -/
def Coordinates.containsPoint (c : Coordinates) (p : Point) : Prop :=
  (0 ≤ cross c.topLeft c.topRight p ∧ 0 ≤ cross c.topRight c.bottomRight p ∧
    0 ≤ cross c.bottomRight c.bottomLeft p ∧ 0 ≤ cross c.bottomLeft c.topLeft p) ∨
  (cross c.topLeft c.topRight p ≤ 0 ∧ cross c.topRight c.bottomRight p ≤ 0 ∧
    cross c.bottomRight c.bottomLeft p ≤ 0 ∧ cross c.bottomLeft c.topLeft p ≤ 0)

/-- The square (50,50)-(300,300) with the two top handles dragged below the two bottom ones:
topLeft (50,300), topRight (300,300), bottomRight (300,50), bottomLeft (50,50). -/
def flippedSquare : Coordinates :=
  { topLeft := ⟨50, 300⟩, topRight := ⟨300, 300⟩, bottomRight := ⟨300, 50⟩, bottomLeft := ⟨50, 50⟩ }

/-- C3 as the specification states it for one strategy and one point: `isPointInside`
answers true exactly when `getRegion` holds a row at `p.y` whose span contains `p.x`. -/
def agreesWithRegion (s : PointInsideStrategy) (p : Point) : Prop :=
  s.isPointInside p = true ↔ ∃ row ∈ s.getRegion, (row.y : ℚ) = p.y ∧ row.min ≤ p.x ∧ p.x ≤ row.max

/-- C4 as the specification states it for one corner `c`: every row is the uncovered value,
the region is empty and no point is contained. -/
def entirelyUncovered (c : Point) : Prop :=
  let s := PointInsideStrategy.fresh.prepareStrategy (degenerate c)
  (∀ y : ℕ, y < 480 → s.boundaries[y]? = some uncovered) ∧ s.getRegion = [] ∧
    ∀ p : Point, s.isPointInside p = false

/-- C7 as the specification states it for one row: the sampled columns are exactly the
integers from floor(min) to ceil(max), both ends included. -/
def sampledAsSpecified (row : Row) : Prop :=
  ∀ x : ℤ, x ∈ sampledColumns row ↔ ⌊row.min⌋ ≤ x ∧ x ≤ ⌈row.max⌉

/-- The row indices `y` of a region returned by `getRegion`. -/
def coveredRows (region : List Row) : List ℕ :=
  region.map Row.y

/-- The arithmetic midpoint M(a, b) of two points. -/
def midpoint (a b : Point) : Point :=
  { x := (a.x + b.x) / 2, y := (a.y + b.y) / 2 }

/-- The point at fraction `t` along the segment from `a` to `b`. -/
def alongSegment (a b : Point) (t : ℚ) : Point :=
  { x := a.x + (b.x - a.x) * t, y := a.y + (b.y - a.y) * t }

/-- The smallest x among the four corners. -/
def Coordinates.smallestX (c : Coordinates) : ℚ :=
  Min.min (Min.min c.topLeft.x c.topRight.x) (Min.min c.bottomRight.x c.bottomLeft.x)

/-- The largest x among the four corners. -/
def Coordinates.largestX (c : Coordinates) : ℚ :=
  Max.max (Max.max c.topLeft.x c.topRight.x) (Max.max c.bottomRight.x c.bottomLeft.x)

/-- The smallest y among the four corners. -/
def Coordinates.smallestY (c : Coordinates) : ℚ :=
  Min.min (Min.min c.topLeft.y c.topRight.y) (Min.min c.bottomRight.y c.bottomLeft.y)

/-- The largest y among the four corners. -/
def Coordinates.largestY (c : Coordinates) : ℚ :=
  Max.max (Max.max c.topLeft.y c.topRight.y) (Max.max c.bottomRight.y c.bottomLeft.y)

/-- The grid with the counts v and h in which the main polygon and the four bands are all
derived from the corners c alone. -/
def builtGrid (v h : ℕ) (c : Coordinates) : Grid :=
  { topPolygons := initHorizontalSubAreas c.topLeft c.topRight
      (centerOf (buildFunctionParameters c.topRight c.bottomRight))
      (centerOf (buildFunctionParameters c.topLeft c.bottomLeft)) h
    bottomPolygons := initHorizontalSubAreas
      (centerOf (buildFunctionParameters c.topLeft c.bottomLeft))
      (centerOf (buildFunctionParameters c.topRight c.bottomRight))
      c.bottomRight c.bottomLeft h
    leftPolygons := initVerticalSubAreas c.topLeft
      (centerOf (buildFunctionParameters c.topLeft c.topRight))
      (centerOf (buildFunctionParameters c.bottomLeft c.bottomRight))
      c.bottomLeft v
    rightPolygons := initVerticalSubAreas
      (centerOf (buildFunctionParameters c.topLeft c.topRight))
      c.topRight c.bottomRight
      (centerOf (buildFunctionParameters c.bottomLeft c.bottomRight)) v
    areaPolygon :=
      { coordinates := c
        isPointInsideStrategy := some (PointInsideStrategy.fresh.prepareStrategy c) }
    verticalSubdivisions := v
    horizontalSubdivisions := h }

/-! ## Rounded arithmetic -/

/-- The number of binary digits of `n`, by repeated halving (`fuel` bounds the number of
halvings; `bitLength n n` is the length of `n`). -/
def bitLength : ℕ → ℕ → ℕ
  | 0, _ => 0
  | fuel + 1, n => if n = 0 then 0 else bitLength fuel (n / 2) + 1

/-- The product `q * 2^k` for an integer exponent `k`. -/
def scaleBy (q : ℚ) (k : ℤ) : ℚ :=
  if 0 ≤ k then q * ((2 ^ k.toNat : ℕ) : ℚ) else q / ((2 ^ (-k).toNat : ℕ) : ℚ)

/-- The binary exponent of a rational other than 0: the integer `e` with
`2^e ≤ |q| < 2^(e+1)`. -/
def binaryExponent (q : ℚ) : ℤ :=
  let e0 : ℤ := (bitLength q.num.natAbs q.num.natAbs : ℤ) - (bitLength q.den q.den : ℤ)
  if scaleBy 1 e0 ≤ |q| then e0 else e0 - 1

/-- Rounding to the nearest integer, a tie going to the even one. -/
def roundHalfEven (q : ℚ) : ℤ :=
  let f := ⌊q⌋
  let r := q - (f : ℚ)
  if r < 1 / 2 then f else if 1 / 2 < r then f + 1 else if f % 2 = 0 then f else f + 1

/-- The rounding of a real result to a JavaScript number (IEEE 754 binary64, round to
nearest, ties to even): 53 significant binary digits, the exponent not below -1022.
Results beyond the largest finite double are not modelled. -/
def roundDouble (q : ℚ) : ℚ :=
  if q = 0 then 0
  else
    let e := max (binaryExponent q) (-1022)
    scaleBy (roundHalfEven (scaleBy q (52 - e)) : ℚ) (e - 52)

/-- Method `#buildFunctionParameters(a, b)` with every arithmetic result rounded by `rnd`. -/
def buildFunctionParametersRounded (rnd : ℚ → ℚ) (a b : Point) : FunctionParameters :=
  if rnd (a.x - b.x) = 0 then
    { isVertical := true, yValue := a.x, slope := none, base := none, a := a, b := b }
  else
    let slope := rnd (rnd (a.y - b.y) / rnd (a.x - b.x))
    let base := rnd (a.y - rnd (slope * a.x))
    { isVertical := false, yValue := 0, slope := some slope, base := some base, a := a, b := b }

/-- Method `#buildAllFunctionParameters` over the rounded segment parameters. -/
def buildAllFunctionParametersRounded (rnd : ℚ → ℚ) (polygon : Coordinates) :
    List FunctionParameters :=
  [ buildFunctionParametersRounded rnd polygon.topLeft polygon.topRight,
    buildFunctionParametersRounded rnd polygon.topLeft polygon.bottomLeft,
    buildFunctionParametersRounded rnd polygon.topRight polygon.bottomRight,
    buildFunctionParametersRounded rnd polygon.bottomLeft polygon.bottomRight ]

/-- The segment loop of `#calculateBoundaries` with the candidate
`(y - parameters.base) / parameters.slope` computed in rounded arithmetic: the difference
is rounded, then the quotient.  The comparisons are those of the source; with an `undefined`
slope the candidate is `NaN` and nothing is pushed, as in `scanSegments`. -/
def scanSegmentsRounded (rnd : ℚ → ℚ) (minX maxX y : ℚ) :
    List FunctionParameters → List ℚ → List ℚ
  | [], results => results
  | parameters :: rest, results =>
    if (parameters.a.y < y ∧ parameters.b.y < y) ∨ (parameters.a.y > y ∧ parameters.b.y > y) then
      scanSegmentsRounded rnd minX maxX y rest results
    else if parameters.isVertical = true ∧ parameters.a.y ≤ y ∧ parameters.b.y ≥ y then
      scanSegmentsRounded rnd minX maxX y rest (results ++ [parameters.yValue])
    else if parameters.slope = some 0 then
      if parameters.base = some y then
        results ++ [parameters.a.x, parameters.b.x]
      else
        scanSegmentsRounded rnd minX maxX y rest results
    else
      match parameters.slope, parameters.base with
      | some slope, some base =>
        let result := rnd (rnd (y - base) / slope)
        if result ≥ minX ∧ result ≤ maxX then
          scanSegmentsRounded rnd minX maxX y rest (results ++ [result])
        else
          scanSegmentsRounded rnd minX maxX y rest results
      | _, _ => scanSegmentsRounded rnd minX maxX y rest results

/-- Method `#calculateBoundaries(params, y)` over the rounded segment loop. -/
def calculateBoundariesRounded (rnd : ℚ → ℚ) (s : PointInsideStrategy)
    (params : List FunctionParameters) (y : ℚ) : Boundaries :=
  if y < s.minY ∨ y > s.maxY then
    { min := -1, max := -1 }
  else
    match scanSegmentsRounded rnd s.minX s.maxX y params [] with
    | [] => { min := -1, max := -1 }
    | r :: results => { min := results.foldl Min.min r, max := results.foldl Max.max r }

/-- Method `#calculateAllBoundaries(params)` over the rounded rows. -/
def calculateAllBoundariesRounded (rnd : ℚ → ℚ) (s : PointInsideStrategy)
    (params : List FunctionParameters) : PointInsideStrategy :=
  (List.range 480).foldl
    (fun (t : PointInsideStrategy) (y : ℕ) =>
      { t with boundaries := t.boundaries ++ [calculateBoundariesRounded rnd t params (y : ℚ)] }) s

/-- Method `prepareStrategy()` in rounded arithmetic. -/
def PointInsideStrategy.prepareStrategyRounded (rnd : ℚ → ℚ) (s : PointInsideStrategy)
    (polygon : Coordinates) : PointInsideStrategy :=
  let s1 := { s with boundaries := [] }
  let s2 := calculateMinMaxCoordinates s1 polygon
  let s3 := { s2 with params := buildAllFunctionParametersRounded rnd polygon }
  calculateAllBoundariesRounded rnd s3 s3.params

/-- Row `y` of the table that `prepareStrategyRounded` builds for the corners `c`. -/
def tableRowRounded (rnd : ℚ → ℚ) (c : Coordinates) (y : ℕ) : Boundaries :=
  calculateBoundariesRounded rnd (calculateMinMaxCoordinates PointInsideStrategy.fresh c)
    (buildAllFunctionParametersRounded rnd c) (y : ℚ)

/-- The quadrilateral (656,6), (672,31), (677,41), (641,46), to the right of the canvas. -/
def quadBeyondCanvas : Coordinates :=
  { topLeft := ⟨656, 6⟩, topRight := ⟨672, 31⟩, bottomRight := ⟨677, 41⟩,
    bottomLeft := ⟨641, 46⟩ }

/-- The quadrilateral (16,6), (32,31), (37,41), (1,46), inside the canvas. -/
def quadInsideCanvas : Coordinates :=
  { topLeft := ⟨16, 6⟩, topRight := ⟨32, 31⟩, bottomRight := ⟨37, 41⟩, bottomLeft := ⟨1, 46⟩ }

/-- Setter `set coordinates(...)` of `Polygon`, the strategy rebuilt in rounded arithmetic. -/
def Polygon.setCoordinatesRounded (rnd : ℚ → ℚ) (p : Polygon) (c : Coordinates) : Polygon :=
  { coordinates := c
    isPointInsideStrategy :=
      p.isPointInsideStrategy.map
        (fun (s : PointInsideStrategy) => s.prepareStrategyRounded rnd c) }

/-- Setter `set strategy(strategy)` of `Polygon`, the strategy prepared in rounded
arithmetic. -/
def Polygon.setStrategyRounded (rnd : ℚ → ℚ) (p : Polygon) (strategy : PointInsideStrategy) :
    Polygon :=
  { p with isPointInsideStrategy := some (strategy.prepareStrategyRounded rnd p.coordinates) }

/-- One end of the center axis in rounded arithmetic: the sum is rounded, then the half;
the product `slope * x` is rounded, then the sum with `base`. -/
def centerOfRounded (rnd : ℚ → ℚ) (params : FunctionParameters) : Point :=
  if params.isVertical = true then
    { x := params.yValue, y := rnd (rnd (params.a.y + params.b.y) / 2) }
  else
    let x := rnd (rnd (params.a.x + params.b.x) / 2)
    { x := x, y := rnd (params.base.getD 0 + rnd (params.slope.getD 0 * x)) }

/-- Method `#calculateCenterCoordinates(aParams, bParams)` in rounded arithmetic. -/
def calculateCenterCoordinatesRounded (rnd : ℚ → ℚ) (aParams bParams : FunctionParameters) :
    CenterCoordinates :=
  { start := centerOfRounded rnd aParams, finish := centerOfRounded rnd bParams }

/-- The body of both sub-area loops after the corners are computed, in rounded arithmetic. -/
def subPolygonRounded (rnd : ℚ → ℚ) (c : Coordinates) : Polygon :=
  (Polygon.fresh.setCoordinatesRounded rnd c).setStrategyRounded rnd PointInsideStrategy.fresh

/-- The expression `p + ((q - p) / count) * k` of the sub-area loops, each of its four
operations rounded in the order in which the source evaluates them. -/
def interpolateRounded (rnd : ℚ → ℚ) (p q : ℚ) (count : ℕ) (k : ℚ) : ℚ :=
  rnd (p + rnd (rnd (rnd (q - p) / (count : ℚ)) * k))

/-- The four corners that pass `i` of the loop of `#initHorizontalSubAreas` computes, in
rounded arithmetic. -/
def horizontalSubAreaRounded (rnd : ℚ → ℚ) (tL tR bR bL : Point) (count i : ℕ) : Coordinates :=
  { topLeft :=
      { x := interpolateRounded rnd tL.x tR.x count (i : ℚ)
        y := interpolateRounded rnd tL.y tR.y count (i : ℚ) }
    topRight :=
      { x := interpolateRounded rnd tL.x tR.x count (rnd ((i : ℚ) + 1))
        y := interpolateRounded rnd tL.y tR.y count (rnd ((i : ℚ) + 1)) }
    bottomRight :=
      { x := interpolateRounded rnd bL.x bR.x count (rnd ((i : ℚ) + 1))
        y := interpolateRounded rnd bL.y bR.y count (rnd ((i : ℚ) + 1)) }
    bottomLeft :=
      { x := interpolateRounded rnd bL.x bR.x count (i : ℚ)
        y := interpolateRounded rnd bL.y bR.y count (i : ℚ) } }

/-- Method `#initHorizontalSubAreas(tL, tR, bR, bL, count)` in rounded arithmetic. -/
def initHorizontalSubAreasRounded (rnd : ℚ → ℚ) (tL tR bR bL : Point) (count : ℕ) :
    List Polygon :=
  (List.range count).map (fun (i : ℕ) =>
    subPolygonRounded rnd (horizontalSubAreaRounded rnd tL tR bR bL count i))

/-- The four corners that pass `i` of the loop of `#initVerticalSubAreas` computes, in
rounded arithmetic. -/
def verticalSubAreaRounded (rnd : ℚ → ℚ) (tL tR bR bL : Point) (count i : ℕ) : Coordinates :=
  { topLeft :=
      { x := interpolateRounded rnd tL.x bL.x count (i : ℚ)
        y := interpolateRounded rnd tL.y bL.y count (i : ℚ) }
    topRight :=
      { x := interpolateRounded rnd tR.x bR.x count (i : ℚ)
        y := interpolateRounded rnd tR.y bR.y count (i : ℚ) }
    bottomRight :=
      { x := interpolateRounded rnd tR.x bR.x count (rnd ((i : ℚ) + 1))
        y := interpolateRounded rnd tR.y bR.y count (rnd ((i : ℚ) + 1)) }
    bottomLeft :=
      { x := interpolateRounded rnd tL.x bL.x count (rnd ((i : ℚ) + 1))
        y := interpolateRounded rnd tL.y bL.y count (rnd ((i : ℚ) + 1)) } }

/-- Method `#initVerticalSubAreas(tL, tR, bR, bL, count)` in rounded arithmetic. -/
def initVerticalSubAreasRounded (rnd : ℚ → ℚ) (tL tR bR bL : Point) (count : ℕ) :
    List Polygon :=
  (List.range count).map (fun (i : ℕ) =>
    subPolygonRounded rnd (verticalSubAreaRounded rnd tL tR bR bL count i))

/-- Method `#initSubAreas(verticalSubdivisions, horizontalSubdivisions)` in rounded
arithmetic; `none` where the source throws a `TypeError`. -/
def Grid.initSubAreasRounded (rnd : ℚ → ℚ) (g : Grid)
    (verticalSubdivisions horizontalSubdivisions : ℕ) : Option Grid :=
  match g.areaPolygon.isPointInsideStrategy with
  | none => none
  | some strategy =>
    match strategy.params[0]?, strategy.params[1]?, strategy.params[2]?, strategy.params[3]? with
    | some p0, some p1, some p2, some p3 =>
      let horizontalCenter := calculateCenterCoordinatesRounded rnd p0 p3
      let verticalCenter := calculateCenterCoordinatesRounded rnd p1 p2
      let c := g.areaPolygon.coordinates
      some { g with
        topPolygons := initHorizontalSubAreasRounded rnd c.topLeft c.topRight
          verticalCenter.finish verticalCenter.start horizontalSubdivisions
        bottomPolygons := initHorizontalSubAreasRounded rnd verticalCenter.start
          verticalCenter.finish c.bottomRight c.bottomLeft horizontalSubdivisions
        leftPolygons := initVerticalSubAreasRounded rnd c.topLeft horizontalCenter.start
          horizontalCenter.finish c.bottomLeft verticalSubdivisions
        rightPolygons := initVerticalSubAreasRounded rnd horizontalCenter.start c.topRight
          c.bottomRight horizontalCenter.finish verticalSubdivisions }
    | _, _, _, _ => none

/-- The constructor `new Grid(verticalSubdivisions, horizontalSubdivisions)` in rounded
arithmetic. -/
def Grid.createRounded (rnd : ℚ → ℚ) (verticalSubdivisions horizontalSubdivisions : ℕ) :
    Option Grid :=
  Grid.initSubAreasRounded rnd
    { topPolygons := [], bottomPolygons := [], leftPolygons := [], rightPolygons := []
      areaPolygon := Polygon.fresh.setStrategyRounded rnd PointInsideStrategy.fresh
      verticalSubdivisions := verticalSubdivisions
      horizontalSubdivisions := horizontalSubdivisions }
    verticalSubdivisions horizontalSubdivisions

/-- Setter `set coordinates(coordinates)` of `Grid` in rounded arithmetic. -/
def Grid.setCoordinatesRounded (rnd : ℚ → ℚ) (g : Grid) (coordinates : Coordinates) :
    Option Grid :=
  Grid.initSubAreasRounded rnd
    { g with areaPolygon := g.areaPolygon.setCoordinatesRounded rnd coordinates }
    g.verticalSubdivisions g.horizontalSubdivisions

/-- The last of the seven top sub-quads that doubles give on the rectangle (0,0), (29,0),
(29,10), (0,10): its right edge is at 29 + 2^-48 (29.000000000000004). -/
def lastTopSubQuad : Coordinates :=
  { topLeft := ⟨874582963350967 / 35184372088832, 0⟩
    topRight := ⟨8162774324609025 / 281474976710656, 0⟩
    bottomRight := ⟨8162774324609025 / 281474976710656, 5⟩
    bottomLeft := ⟨874582963350967 / 35184372088832, 5⟩ }

/-! ## The boundary table -/

theorem calculateBoundaries_extrema (s t : PointInsideStrategy) (params : List FunctionParameters)
    (y : ℚ) (hx : s.minX = t.minX) (hX : s.maxX = t.maxX) (hy : s.minY = t.minY)
    (hY : s.maxY = t.maxY) : calculateBoundaries s params y = calculateBoundaries t params y := by
  simp only [calculateBoundaries, hx, hX, hy, hY]

theorem calculateAllBoundaries_range (params : List FunctionParameters) (n : ℕ)
    (s : PointInsideStrategy) :
    (List.range n).foldl
      (fun (t : PointInsideStrategy) (y : ℕ) =>
        { t with boundaries := t.boundaries ++ [calculateBoundaries t params (y : ℚ)] }) s
    = { s with boundaries := s.boundaries ++
          (List.range n).map (fun (y : ℕ) => calculateBoundaries s params (y : ℚ)) } := by
  induction n with
  | zero => simp
  | succ n ih =>
    rw [List.range_succ, List.foldl_append, ih]
    simp only [List.foldl_cons, List.foldl_nil, List.map_append, List.map_cons, List.map_nil,
      List.append_assoc]
    congr 3

/-- The state after `prepareStrategy` does not depend on the state before it. -/
theorem prepareStrategy_eq (s : PointInsideStrategy) (c : Coordinates) :
    s.prepareStrategy c =
      { calculateMinMaxCoordinates PointInsideStrategy.fresh c with
        boundaries := (List.range 480).map (tableRow c)
        params := buildAllFunctionParameters c } := by
  simp only [PointInsideStrategy.prepareStrategy, calculateAllBoundaries,
    calculateAllBoundaries_range, List.nil_append]
  congr 1

theorem boundaries_prepareStrategy (s : PointInsideStrategy) (c : Coordinates) :
    (s.prepareStrategy c).boundaries = (List.range 480).map (tableRow c) := by
  rw [prepareStrategy_eq]

theorem getElem?_boundaries_prepareStrategy (s : PointInsideStrategy) (c : Coordinates) (y : ℕ)
    (hy : y < 480) : (s.prepareStrategy c).boundaries[y]? = some (tableRow c y) := by
  rw [boundaries_prepareStrategy, List.getElem?_map, List.getElem?_range hy]
  rfl

theorem boundariesAt_natCast (boundaries : List Boundaries) (y : ℕ) :
    boundariesAt boundaries (y : ℚ) = boundaries[y]? := by
  simp [boundariesAt]

theorem boundariesAt_eq_some (boundaries : List Boundaries) (y : ℚ) (b : Boundaries)
    (h : boundariesAt boundaries y = some b) : ∃ n : ℕ, (n : ℚ) = y ∧ boundaries[n]? = some b := by
  unfold boundariesAt at h
  split_ifs at h with hc
  refine ⟨y.num.toNat, ?_, h⟩
  have h1 : ((y.num.toNat : ℤ) : ℚ) = (y.num : ℚ) := by rw [Int.toNat_of_nonneg hc.2]
  have h2 : (y.num : ℚ) = y := by
    have := Rat.num_div_den y
    rw [hc.1] at this
    simpa using this
  rw [← h2, ← h1]
  norm_cast

/-- Membership in `getRegion`: the rows are the table entries other than `{min: -1, max: -1}`,
each tagged with its index. -/
theorem mem_getRegion (s : PointInsideStrategy) (row : Row) :
    row ∈ s.getRegion ↔
      s.boundaries[row.y]? = some { min := row.min, max := row.max } ∧
        (row.min ≠ -1 ∨ row.max ≠ -1) := by
  unfold PointInsideStrategy.getRegion
  rw [List.mem_filter, List.mem_map]
  constructor
  · rintro ⟨⟨⟨i, b⟩, hib, rfl⟩, hf⟩
    exact ⟨List.mk_mem_enum_iff_getElem?.mp hib, by simpa using hf⟩
  · rintro ⟨hb, hf⟩
    refine ⟨⟨(row.y, { min := row.min, max := row.max }), ?_, rfl⟩, by simpa using hf⟩
    exact List.mk_mem_enum_iff_getElem?.mpr hb

theorem isPointInside_prepareStrategy (s : PointInsideStrategy) (c : Coordinates) (x : ℚ) (y : ℕ)
    (hy : y < 480) :
    (s.prepareStrategy c).isPointInside ⟨x, (y : ℚ)⟩ =
      decide ((tableRow c y).min ≤ x ∧ x ≤ (tableRow c y).max) := by
  simp only [PointInsideStrategy.isPointInside, boundariesAt_natCast,
    getElem?_boundaries_prepareStrategy s c y hy]

theorem tableRow_rectangle (x0 y0 x1 y1 : ℚ) (hx0 : 0 ≤ x0) (hx : x0 < x1) (hx1 : x1 ≤ 640)
    (hy0 : 0 ≤ y0) (hy : y0 < y1) (hy1 : y1 < 480) (y : ℕ) :
    tableRow (rectangle x0 y0 x1 y1) y =
      if y0 ≤ (y : ℚ) ∧ (y : ℚ) ≤ y1 then { min := x0, max := x1 } else uncovered := by
  have e1 : min (min (min (min (640:ℚ) x0) x1) x1) x0 = x0 := by
    simp [min_eq_right, hx.le, hx1, le_trans hx.le hx1]
  have e2 : min (min (min (min (480:ℚ) y0) y0) y1) y1 = y0 := by
    simp [min_eq_right, hy.le, hy1.le, le_trans hy.le hy1.le]
  have e3 : max (max (max (max (0:ℚ) x0) x1) x1) x0 = x1 := by
    simp [hx.le, hx0, le_trans hx0 hx.le]
  have e4 : max (max (max (max (0:ℚ) y0) y0) y1) y1 = y1 := by
    simp [hy.le, hy0, le_trans hy0 hy.le]
  have hne : x0 - x1 ≠ 0 := by intro h; linarith
  simp only [tableRow, calculateBoundaries, calculateMinMaxCoordinates, rectangle,
    Coordinates.toList, List.foldl_cons, List.foldl_nil, buildAllFunctionParameters,
    buildFunctionParameters, sub_self, if_true, hne, if_false, uncovered, e1, e2, e3, e4,
    zero_div, zero_mul, sub_zero]
  by_cases h1 : (y : ℚ) < y0
  · have : ¬ (y0 ≤ (y : ℚ)) := not_le.mpr h1
    simp [h1, this]
  by_cases h2 : (y : ℚ) > y1
  · have : ¬ ((y : ℚ) ≤ y1) := not_le.mpr h2
    simp [h2, this]
  have h3 : y0 ≤ (y : ℚ) := not_lt.mp h1
  have h4 : (y : ℚ) ≤ y1 := not_lt.mp h2
  rw [if_neg (by tauto), if_pos ⟨h3, h4⟩]
  rcases eq_or_lt_of_le h3 with h5 | h5
  · simp [scanSegments, ← h5, hx.le]
  rcases eq_or_lt_of_le h4 with h6 | h6
  · simp [scanSegments, h6, hy, hy.le, hy.not_lt, hx.le, (ne_of_lt hy).symm, ne_of_lt hy]
  · simp [scanSegments, h5, h6, h5.le, h6.le, h5.not_lt, h6.not_lt, hx.le]

theorem tableRow_degenerate (c : Point) (y : ℕ) :
    tableRow (degenerate c) y =
      if (y : ℚ) = c.y then { min := c.x, max := c.x } else uncovered := by
  simp only [tableRow, calculateBoundaries, calculateMinMaxCoordinates, degenerate,
    Coordinates.toList, List.foldl_cons, List.foldl_nil, buildAllFunctionParameters,
    buildFunctionParameters, sub_self, if_true, uncovered]
  by_cases h : (y : ℚ) = c.y
  · have h0 : (0 : ℚ) ≤ c.y := by rw [← h]; exact Nat.cast_nonneg y
    simp [scanSegments, ← h]
  · rw [if_neg h]
    rcases lt_or_gt_of_ne h with h1 | h1
    · split_ifs
      · rfl
      · simp [scanSegments, h1, h1.not_lt]
    · split_ifs
      · rfl
      · simp [scanSegments, h1, h1.not_lt]

theorem tableRow_flippedSquare_100 : tableRow flippedSquare 100 = uncovered := by
  simp [tableRow, calculateBoundaries, calculateMinMaxCoordinates, flippedSquare,
    Coordinates.toList, buildAllFunctionParameters, buildFunctionParameters, scanSegments,
    uncovered]
  norm_num

/-- Away from x = -1 the two readers of the table agree: `isPointInside` answers true exactly
when `getRegion` holds a row at `p.y` whose span contains `p.x`. -/
theorem agreesWithRegion_of_ne (s : PointInsideStrategy) (p : Point) (hx : p.x ≠ -1) :
    agreesWithRegion s p := by
  unfold agreesWithRegion
  constructor
  · intro hin
    unfold PointInsideStrategy.isPointInside at hin
    cases hb : boundariesAt s.boundaries p.y with
    | none => rw [hb] at hin; simp at hin
    | some b =>
      rw [hb] at hin
      simp only [decide_eq_true_eq] at hin
      obtain ⟨n, hn, hbn⟩ := boundariesAt_eq_some _ _ _ hb
      refine ⟨{ min := b.min, max := b.max, y := n }, ?_, hn, hin.1, hin.2⟩
      rw [mem_getRegion]
      refine ⟨hbn, ?_⟩
      by_contra hcon
      push_neg at hcon
      have h1 : (-1 : ℚ) ≤ p.x := by
        have := hin.1
        rwa [show b.min = -1 from hcon.1] at this
      have h2 : p.x ≤ -1 := by
        have := hin.2
        rwa [show b.max = -1 from hcon.2] at this
      exact hx (le_antisymm h2 h1)
  · rintro ⟨row, hmem, hy, h1, h2⟩
    rw [mem_getRegion] at hmem
    unfold PointInsideStrategy.isPointInside
    rw [← hy, boundariesAt_natCast, hmem.1]
    simp [h1, h2]

/-! ## C1: containment test against the closed quadrilateral -/

/-- C1 (the code departs from the claim): the quadrilateral with corners (50,300), (300,300),
(300,50), (50,50) is strictly convex and inside the canvas, the pixel (100,100) lies in it,
and `isPointInside` answers false: both vertical segments run from the larger y to the
smaller one, fail the test `a.y <= y && b.y >= y` and contribute nothing to row 100. -/
theorem C1_flipped_square_pixel_missed :
    flippedSquare.convex ∧ flippedSquare.insideCanvas ∧
      flippedSquare.containsPoint ⟨100, 100⟩ ∧
      (PointInsideStrategy.fresh.prepareStrategy flippedSquare).isPointInside ⟨100, 100⟩
        = false := by
  refine ⟨?_, ?_, ?_, ?_⟩
  · right
    simp only [flippedSquare, cross]
    norm_num
  · intro q hq
    simp only [flippedSquare, Coordinates.toList, List.mem_cons, List.mem_singleton,
      List.mem_nil_iff, or_false] at hq
    rcases hq with rfl | rfl | rfl | rfl <;> norm_num
  · right
    simp only [flippedSquare, cross]
    norm_num
  · have h := isPointInside_prepareStrategy PointInsideStrategy.fresh flippedSquare 100 100
      (by norm_num)
    rw [tableRow_flippedSquare_100] at h
    simp only [Nat.cast_ofNat] at h
    rw [h]
    simp [uncovered]
    norm_num

/-! ## C2: the table of an axis-aligned rectangle -/

/-- C2: for the rectangle (x0,y0), (x1,y0), (x1,y1), (x0,y1) with 0 <= x0 < x1 <= 640 and
0 <= y0 < y1 < 480, the table built by `prepareStrategy` has 480 rows, row y holding
`{min: x0, max: x1}` when y0 <= y <= y1 and `{min: -1, max: -1}` otherwise. -/
theorem C2_rectangle_table (s : PointInsideStrategy) (x0 y0 x1 y1 : ℚ) (hx0 : 0 ≤ x0)
    (hx : x0 < x1) (hx1 : x1 ≤ 640) (hy0 : 0 ≤ y0) (hy : y0 < y1) (hy1 : y1 < 480) :
    (s.prepareStrategy (rectangle x0 y0 x1 y1)).boundaries =
      (List.range 480).map (fun (y : ℕ) =>
        if y0 ≤ (y : ℚ) ∧ (y : ℚ) ≤ y1 then ({ min := x0, max := x1 } : Boundaries)
        else uncovered) := by
  rw [boundaries_prepareStrategy]
  apply List.map_congr_left
  intro y _
  exact tableRow_rectangle x0 y0 x1 y1 hx0 hx hx1 hy0 hy hy1 y

/-- C2 at (50,50), (300,50), (300,300), (50,300): row 100 is `{min: 50, max: 300}`, rows 10
and 400 are uncovered. -/
theorem C2_rectangle_table_witness :
    (PointInsideStrategy.fresh.prepareStrategy (rectangle 50 50 300 300)).boundaries[100]?
        = some { min := 50, max := 300 } ∧
      (PointInsideStrategy.fresh.prepareStrategy (rectangle 50 50 300 300)).boundaries[10]?
        = some uncovered ∧
      (PointInsideStrategy.fresh.prepareStrategy (rectangle 50 50 300 300)).boundaries[400]?
        = some uncovered := by
  rw [C2_rectangle_table PointInsideStrategy.fresh 50 50 300 300 (by norm_num) (by norm_num)
    (by norm_num) (by norm_num) (by norm_num) (by norm_num)]
  refine ⟨?_, ?_, ?_⟩
  · rw [List.getElem?_map, List.getElem?_range (by norm_num)]
    norm_num
  · rw [List.getElem?_map, List.getElem?_range (by norm_num)]
    norm_num
  · rw [List.getElem?_map, List.getElem?_range (by norm_num)]
    norm_num

/-! ## C3: containment against the covered rows -/

/-- C3 (the code departs from the claim): for the rectangle (50,50), (300,50), (300,300),
(50,300) and the point (-1, 10), `isPointInside` answers true although `getRegion` holds no
row at y = 10: row 10 stores `{min: -1, max: -1}`, which `getRegion` filters out and
`isPointInside` compares against like any span. -/
theorem C3_uncovered_row_contains_minus_one :
    (PointInsideStrategy.fresh.prepareStrategy (rectangle 50 50 300 300)).isPointInside ⟨-1, 10⟩
        = true ∧
      (¬ ∃ row ∈ (PointInsideStrategy.fresh.prepareStrategy (rectangle 50 50 300 300)).getRegion,
        (row.y : ℚ) = 10) ∧
      ¬ agreesWithRegion (PointInsideStrategy.fresh.prepareStrategy (rectangle 50 50 300 300))
        ⟨-1, 10⟩ := by
  have hrow : tableRow (rectangle 50 50 300 300) 10 = uncovered := by
    rw [tableRow_rectangle 50 50 300 300 (by norm_num) (by norm_num) (by norm_num) (by norm_num)
      (by norm_num) (by norm_num)]
    norm_num
  have hin : (PointInsideStrategy.fresh.prepareStrategy (rectangle 50 50 300 300)).isPointInside
      ⟨-1, 10⟩ = true := by
    have h := isPointInside_prepareStrategy PointInsideStrategy.fresh (rectangle 50 50 300 300)
      (-1) 10 (by norm_num)
    rw [hrow] at h
    simp only [Nat.cast_ofNat] at h
    rw [h]
    simp [uncovered]
  have hno : ¬ ∃ row ∈ (PointInsideStrategy.fresh.prepareStrategy
      (rectangle 50 50 300 300)).getRegion, (row.y : ℚ) = 10 := by
    rintro ⟨row, hmem, hy⟩
    have hy10 : row.y = 10 := by exact_mod_cast hy
    rw [mem_getRegion, hy10, getElem?_boundaries_prepareStrategy _ _ 10 (by norm_num), hrow]
      at hmem
    obtain ⟨hb, hne⟩ := hmem
    simp only [uncovered, Option.some.injEq, Boundaries.mk.injEq] at hb
    rcases hne with h | h
    · exact h hb.1.symm
    · exact h hb.2.symm
  refine ⟨hin, hno, ?_⟩
  intro hagree
  obtain ⟨row, hmem, hy, _⟩ := hagree.mp hin
  exact hno ⟨row, hmem, hy⟩

/-! ## C4: four equal corners -/

/-- C4 as stated fails at c = (100,100): row 100 of the table is `{min: 100, max: 100}`, not
the uncovered value. -/
theorem C4_counterexample : ¬ entirelyUncovered ⟨100, 100⟩ := by
  intro h
  have h1 := h.1 100 (by norm_num)
  rw [getElem?_boundaries_prepareStrategy _ _ 100 (by norm_num), tableRow_degenerate] at h1
  simp [uncovered] at h1
  norm_num at h1

/-- C4 (amended): for every point c, the table of the quadrilateral whose four corners equal
c holds `{min: c.x, max: c.x}` in the row y = c.y (when c.y is one of the rows 0..479) and
the uncovered value in every other row; every row of `getRegion` is that row; and every
contained point whose x is not -1 is c itself. -/
theorem C4_degenerate_table (s : PointInsideStrategy) (c : Point) :
    (s.prepareStrategy (degenerate c)).boundaries =
        (List.range 480).map (fun (y : ℕ) =>
          if (y : ℚ) = c.y then ({ min := c.x, max := c.x } : Boundaries) else uncovered) ∧
      (∀ row ∈ (s.prepareStrategy (degenerate c)).getRegion,
        (row.y : ℚ) = c.y ∧ row.min = c.x ∧ row.max = c.x) ∧
      (∀ p : Point, p.x ≠ -1 → (s.prepareStrategy (degenerate c)).isPointInside p = true →
        p = c) := by
  have htable : (s.prepareStrategy (degenerate c)).boundaries =
      (List.range 480).map (fun (y : ℕ) =>
        if (y : ℚ) = c.y then ({ min := c.x, max := c.x } : Boundaries) else uncovered) := by
    rw [boundaries_prepareStrategy]
    apply List.map_congr_left
    intro y _
    exact tableRow_degenerate c y
  have hget : ∀ (n : ℕ) (b : Boundaries), (s.prepareStrategy (degenerate c)).boundaries[n]?
      = some b → b = (if (n : ℚ) = c.y then ({ min := c.x, max := c.x } : Boundaries)
        else uncovered) := by
    intro n b hb
    rw [htable, List.getElem?_map] at hb
    cases hr : (List.range 480)[n]? with
    | none => rw [hr] at hb; simp at hb
    | some m =>
      rw [hr] at hb
      have hm : m = n := by
        have := List.getElem?_eq_some.mp hr
        obtain ⟨hlt, hv⟩ := this
        simpa using hv.symm
      subst hm
      simpa using hb.symm
  refine ⟨htable, ?_, ?_⟩
  · intro row hmem
    rw [mem_getRegion] at hmem
    obtain ⟨hb, hne⟩ := hmem
    have h := hget _ _ hb
    by_cases hy : (row.y : ℚ) = c.y
    · rw [if_pos hy] at h
      simp only [Boundaries.mk.injEq] at h
      exact ⟨hy, h.1, h.2⟩
    · rw [if_neg hy] at h
      simp only [uncovered, Boundaries.mk.injEq] at h
      rcases hne with h2 | h2
      · exact absurd h.1 h2
      · exact absurd h.2 h2
  · intro p hp hin
    unfold PointInsideStrategy.isPointInside at hin
    cases hb : boundariesAt (s.prepareStrategy (degenerate c)).boundaries p.y with
    | none => rw [hb] at hin; simp at hin
    | some b =>
      rw [hb] at hin
      obtain ⟨n, hn, hbn⟩ := boundariesAt_eq_some _ _ _ hb
      have h := hget _ _ hbn
      simp only [decide_eq_true_eq] at hin
      by_cases hy : (n : ℚ) = c.y
      · rw [if_pos hy] at h
        subst h
        have hx : p.x = c.x := le_antisymm hin.2 hin.1
        have hy2 : p.y = c.y := hn.symm.trans hy
        cases p
        cases c
        simp only [Point.mk.injEq]
        exact ⟨hx, hy2⟩
      · rw [if_neg hy] at h
        subst h
        exact absurd (le_antisymm hin.2 hin.1) hp

/-- C4 (amended) at c = (100,100): the point (100,100) has x different from -1 and is
contained, and the theorem returns it as the corner. -/
theorem C4_degenerate_table_witness :
    ((⟨100, 100⟩ : Point).x ≠ -1) ∧
      (PointInsideStrategy.fresh.prepareStrategy (degenerate ⟨100, 100⟩)).isPointInside
        ⟨100, 100⟩ = true ∧
      (⟨100, 100⟩ : Point) = ⟨100, 100⟩ := by
  have hin : (PointInsideStrategy.fresh.prepareStrategy (degenerate ⟨100, 100⟩)).isPointInside
      ⟨100, 100⟩ = true := by
    have h := isPointInside_prepareStrategy PointInsideStrategy.fresh (degenerate ⟨100, 100⟩)
      100 100 (by norm_num)
    rw [tableRow_degenerate] at h
    simp only [Nat.cast_ofNat] at h
    rw [h]
    simp
  exact ⟨by norm_num, hin,
    (C4_degenerate_table PointInsideStrategy.fresh ⟨100, 100⟩).2.2 ⟨100, 100⟩ (by norm_num) hin⟩

/-! ## The region sampler -/

theorem mem_sampledColumns (row : Row) (x : ℤ) :
    x ∈ sampledColumns row ↔ ⌊row.min⌋ ≤ x ∧ (x : ℚ) ≤ row.max := by
  unfold sampledColumns
  rw [List.mem_map, ← Int.le_floor]
  constructor
  · rintro ⟨k, hk, rfl⟩
    rw [List.mem_range] at hk
    omega
  · rintro ⟨h1, h2⟩
    refine ⟨(x - ⌊row.min⌋).toNat, ?_, ?_⟩
    · rw [List.mem_range]
      omega
    · omega

theorem mem_sampledIndices (boundaries : List Row) (index : ℤ) :
    index ∈ sampledIndices boundaries ↔
      ∃ row ∈ boundaries, ∃ x : ℤ, (⌊row.min⌋ ≤ x ∧ (x : ℚ) ≤ row.max) ∧
        index = 640 * 4 * (row.y : ℤ) + x * 4 := by
  unfold sampledIndices
  rw [List.mem_flatMap]
  constructor
  · rintro ⟨row, hrow, hmem⟩
    rw [List.mem_map] at hmem
    obtain ⟨x, hx, rfl⟩ := hmem
    exact ⟨row, hrow, x, (mem_sampledColumns row x).mp hx, rfl⟩
  · rintro ⟨row, hrow, x, hx, rfl⟩
    exact ⟨row, hrow, List.mem_map.mpr ⟨x, (mem_sampledColumns row x).mpr hx, rfl⟩⟩

theorem foldl_addCurrent_some (vals : List ℕ) (q : ℚ) :
    (vals.map some).foldl addCurrent (JsNumber.finite q) =
      JsNumber.finite (q + ((vals.sum : ℕ) : ℚ)) := by
  induction vals generalizing q with
  | nil => simp
  | cons v vals ih =>
    simp only [List.map_cons, List.foldl_cons, addCurrent, List.sum_cons, Nat.cast_add]
    rw [ih]
    congr 1
    ring

theorem average_nil : average [] = JsNumber.nan := by
  simp [average, divideByLength]

theorem average_some (vals : List ℕ) (h : vals ≠ []) :
    average (vals.map some) = JsNumber.finite (((vals.sum : ℕ) : ℚ) / (vals.length : ℚ)) := by
  have hlen : vals.length ≠ 0 := by simpa using h
  simp [average, foldl_addCurrent_some, divideByLength, hlen, h]

theorem average_const (xs : List (Option ℕ)) (v : ℕ) (hne : xs ≠ [])
    (h : ∀ x ∈ xs, x = some v) : average xs = JsNumber.finite (v : ℚ) := by
  have hx : xs = (List.replicate xs.length v).map some := by
    rw [List.map_replicate]
    exact List.eq_replicate_iff.mpr ⟨rfl, h⟩
  have hlen : xs.length ≠ 0 := by simpa using hne
  have hne2 : List.replicate xs.length v ≠ [] := by simpa using hne
  rw [hx, average_some _ hne2]
  simp only [List.sum_replicate, List.length_replicate, smul_eq_mul, Nat.cast_mul]
  congr 1
  field_simp

/-! ## C5: a region without sampled pixel -/

/-- C5 as stated fails: over the empty row list `process` returns `NaN` on the three
channels (here for the one-pixel buffer 10, 20, 30, 255). -/
theorem C5_counterexample :
    AreaParser.process { boundaries := [] } [10, 20, 30, 255] =
      { r := JsNumber.nan, g := JsNumber.nan, b := JsNumber.nan } := by
  simp [AreaParser.process, sampledIndices, average_nil]

/-- C5 (amended): over a row list that yields no sampled pixel (the empty list included),
`process` returns `NaN` on each of the three channels, the quotient 0 / 0; the code has no
separate outcome for an empty sample. -/
theorem C5_empty_sample_is_nan (parser : AreaParser) (pixels : List ℕ)
    (h : sampledIndices parser.boundaries = []) :
    parser.process pixels = { r := JsNumber.nan, g := JsNumber.nan, b := JsNumber.nan } := by
  unfold AreaParser.process
  simp only [h, List.map_nil]
  rw [average_nil]

/-- C5 (amended) at the single row `{min: 5, max: 3, y: 0}`, which samples no column. -/
theorem C5_empty_sample_is_nan_witness :
    sampledIndices [{ min := 5, max := 3, y := 0 }] = [] ∧
      AreaParser.process { boundaries := [{ min := 5, max := 3, y := 0 }] } [10, 20, 30, 255] =
        { r := JsNumber.nan, g := JsNumber.nan, b := JsNumber.nan } := by
  have h : sampledIndices [{ min := 5, max := 3, y := 0 }] = [] := by
    simp [sampledIndices, sampledColumns]
  exact ⟨h, C5_empty_sample_is_nan { boundaries := [{ min := 5, max := 3, y := 0 }] }
    [10, 20, 30, 255] h⟩

/-! ## C6: a buffer of one colour -/

/-- C6: when every pixel of the buffer has the colour (r, g, b), the row list is not empty,
every row has min <= max and every sampled index lies inside the buffer, `process` returns
exactly r, g and b. -/
theorem C6_uniform_buffer (parser : AreaParser) (pixels : List ℕ) (r g b : ℕ)
    (hne : parser.boundaries ≠ [])
    (hrows : ∀ row ∈ parser.boundaries, row.min ≤ row.max)
    (huniform : ∀ k : ℕ, 4 * k + 3 < pixels.length →
      pixels[4 * k]? = some r ∧ pixels[4 * k + 1]? = some g ∧ pixels[4 * k + 2]? = some b)
    (hinside : ∀ index ∈ sampledIndices parser.boundaries,
      0 ≤ index ∧ index + 3 < (pixels.length : ℤ)) :
    parser.process pixels =
      { r := JsNumber.finite (r : ℚ), g := JsNumber.finite (g : ℚ),
        b := JsNumber.finite (b : ℚ) } := by
  have hnonempty : sampledIndices parser.boundaries ≠ [] := by
    obtain ⟨row, hrow⟩ := List.exists_mem_of_ne_nil _ hne
    have hmem : 640 * 4 * (row.y : ℤ) + ⌊row.min⌋ * 4 ∈ sampledIndices parser.boundaries := by
      rw [mem_sampledIndices]
      exact ⟨row, hrow, ⌊row.min⌋, ⟨le_refl _, le_trans (Int.floor_le _) (hrows row hrow)⟩, rfl⟩
    exact List.ne_nil_of_mem hmem
  have hread : ∀ index ∈ sampledIndices parser.boundaries,
      pixelAt pixels index = some r ∧ pixelAt pixels (index + 1) = some g ∧
        pixelAt pixels (index + 2) = some b := by
    intro index hmem
    obtain ⟨h0, h3⟩ := hinside index hmem
    obtain ⟨row, _, x, _, hidx⟩ := (mem_sampledIndices _ _).mp hmem
    have hk : index.toNat = 4 * (640 * (row.y : ℤ) + x).toNat := by omega
    have hlt : 4 * (640 * (row.y : ℤ) + x).toNat + 3 < pixels.length := by omega
    obtain ⟨hr, hg, hb⟩ := huniform _ hlt
    have h1 : (index + 1).toNat = 4 * (640 * (row.y : ℤ) + x).toNat + 1 := by omega
    have h2 : (index + 2).toNat = 4 * (640 * (row.y : ℤ) + x).toNat + 2 := by omega
    refine ⟨?_, ?_, ?_⟩
    · rw [pixelAt, if_pos h0, hk, hr]
    · rw [pixelAt, if_pos (by omega), h1, hg]
    · rw [pixelAt, if_pos (by omega), h2, hb]
  have hmapne : ∀ f : ℤ → Option ℕ, (sampledIndices parser.boundaries).map f ≠ [] := by
    intro f
    simpa using hnonempty
  unfold AreaParser.process
  simp only
  rw [average_const _ r (hmapne _), average_const _ g (hmapne _), average_const _ b (hmapne _)]
  · intro v hv
    obtain ⟨index, hmem, rfl⟩ := List.mem_map.mp hv
    exact (hread index hmem).2.2
  · intro v hv
    obtain ⟨index, hmem, rfl⟩ := List.mem_map.mp hv
    exact (hread index hmem).2.1
  · intro v hv
    obtain ⟨index, hmem, rfl⟩ := List.mem_map.mp hv
    exact (hread index hmem).1

/-- C6 on the two-pixel buffer 7, 8, 9, 255, 7, 8, 9, 255 with the row
`{min: 0, max: 1, y: 0}`. -/
theorem C6_uniform_buffer_witness :
    AreaParser.process { boundaries := [{ min := 0, max := 1, y := 0 }] }
        [7, 8, 9, 255, 7, 8, 9, 255] =
      { r := JsNumber.finite 7, g := JsNumber.finite 8, b := JsNumber.finite 9 } := by
  have h := C6_uniform_buffer { boundaries := [{ min := 0, max := 1, y := 0 }] }
    [7, 8, 9, 255, 7, 8, 9, 255] 7 8 9 (by simp)
    (by intro row hrow; simp at hrow; subst hrow; norm_num)
    (by
      intro k hk
      simp only [List.length_cons, List.length_nil] at hk
      have hk2 : k = 0 ∨ k = 1 := by omega
      rcases hk2 with rfl | rfl <;> simp)
    (by
      intro index hmem
      rw [mem_sampledIndices] at hmem
      obtain ⟨row, hrow, x, ⟨h1, h2⟩, rfl⟩ := hmem
      simp only [List.mem_singleton] at hrow
      subst hrow
      simp only [Int.floor_zero] at h1
      have h3 : x ≤ 1 := by
        have h4 : (x : ℚ) ≤ 1 := h2
        exact_mod_cast h4
      simp only [List.length_cons, List.length_nil]
      push_cast
      omega)
  simpa using h

/-! ## C7: the sampled columns and the mean -/

/-- C7 as stated fails for the row `{min: 0, max: 1/2, y: 0}`: column 1 = ceil(1/2) is not
sampled. -/
theorem C7_counterexample : ¬ sampledAsSpecified { min := 0, max := 1 / 2, y := 0 } := by
  intro h
  have h1 := (h 1).mpr ⟨by simp, by
    rw [Int.le_ceil_iff]
    norm_num⟩
  rw [mem_sampledColumns] at h1
  norm_num at h1

/-- C7 (amended): the columns sampled on a row are exactly the integers x with
floor(min) <= x <= max, each once; the indices read are exactly the values
640 * 4 * y + 4 * x for these rows and columns; and when at least one pixel is sampled
and every read lands in the buffer, each channel of the result is the sum of the values
read divided by their number. -/
theorem C7_sampled_columns_and_mean (parser : AreaParser) (pixels : List ℕ) (rs gs bs : List ℕ)
    (hne : sampledIndices parser.boundaries ≠ [])
    (hr : (sampledIndices parser.boundaries).map (fun (index : ℤ) => pixelAt pixels index)
      = rs.map some)
    (hg : (sampledIndices parser.boundaries).map (fun (index : ℤ) => pixelAt pixels (index + 1))
      = gs.map some)
    (hb : (sampledIndices parser.boundaries).map (fun (index : ℤ) => pixelAt pixels (index + 2))
      = bs.map some) :
    (∀ (row : Row) (x : ℤ), x ∈ sampledColumns row ↔ ⌊row.min⌋ ≤ x ∧ (x : ℚ) ≤ row.max) ∧
      (∀ row : Row, (sampledColumns row).Nodup) ∧
      (∀ index : ℤ, index ∈ sampledIndices parser.boundaries ↔
        ∃ row ∈ parser.boundaries, ∃ x : ℤ, (⌊row.min⌋ ≤ x ∧ (x : ℚ) ≤ row.max) ∧
          index = 640 * 4 * (row.y : ℤ) + x * 4) ∧
      parser.process pixels =
        { r := JsNumber.finite (((rs.sum : ℕ) : ℚ) / (rs.length : ℚ))
          g := JsNumber.finite (((gs.sum : ℕ) : ℚ) / (gs.length : ℚ))
          b := JsNumber.finite (((bs.sum : ℕ) : ℚ) / (bs.length : ℚ)) } := by
  refine ⟨mem_sampledColumns, ?_, mem_sampledIndices parser.boundaries, ?_⟩
  · intro row
    unfold sampledColumns
    refine List.Nodup.map ?_ (List.nodup_range _)
    intro a b hab
    simpa using hab
  · have hlen : ∀ (f : ℤ → Option ℕ) (vals : List ℕ),
        (sampledIndices parser.boundaries).map f = vals.map some → vals ≠ [] := by
      intro f vals h hv
      rw [hv] at h
      simp at h
      exact hne h
    unfold AreaParser.process
    simp only
    rw [hr, hg, hb, average_some _ (hlen _ _ hr), average_some _ (hlen _ _ hg),
      average_some _ (hlen _ _ hb)]

/-- C7 (amended) on the buffer 10, 20, 30, 255, 30, 40, 50, 255 with the row
`{min: 0, max: 1, y: 0}`: the means are 20, 30 and 40. -/
theorem C7_sampled_columns_and_mean_witness :
    AreaParser.process { boundaries := [{ min := 0, max := 1, y := 0 }] }
        [10, 20, 30, 255, 30, 40, 50, 255] =
      { r := JsNumber.finite 20, g := JsNumber.finite 30, b := JsNumber.finite 40 } := by
  have hidx : sampledIndices [{ min := 0, max := 1, y := 0 }] = [0, 4] := by
    simp [sampledIndices, sampledColumns, List.range_succ]
  have h := (C7_sampled_columns_and_mean { boundaries := [{ min := 0, max := 1, y := 0 }] }
    [10, 20, 30, 255, 30, 40, 50, 255] [10, 30] [20, 40] [30, 50]
    (by rw [hidx]; simp) (by rw [hidx]; simp [pixelAt]) (by rw [hidx]; simp [pixelAt])
    (by rw [hidx]; simp [pixelAt])).2.2.2
  rw [h]
  norm_num

/-! ## The grid -/

theorem params_prepareStrategy (s : PointInsideStrategy) (c : Coordinates) :
    (s.prepareStrategy c).params = buildAllFunctionParameters c := by
  rw [prepareStrategy_eq]

/-- The four band lists that `#initSubAreas` derives from the corners `c` of the main polygon. -/
theorem initSubAreas_eq (g : Grid) (st : PointInsideStrategy) (c : Coordinates) (v h : ℕ)
    (hst : g.areaPolygon.isPointInsideStrategy = some st)
    (hparams : st.params = buildAllFunctionParameters c) :
    g.initSubAreas v h = some { g with
      topPolygons := initHorizontalSubAreas g.areaPolygon.coordinates.topLeft
        g.areaPolygon.coordinates.topRight
        (centerOf (buildFunctionParameters c.topRight c.bottomRight))
        (centerOf (buildFunctionParameters c.topLeft c.bottomLeft)) h
      bottomPolygons := initHorizontalSubAreas
        (centerOf (buildFunctionParameters c.topLeft c.bottomLeft))
        (centerOf (buildFunctionParameters c.topRight c.bottomRight))
        g.areaPolygon.coordinates.bottomRight g.areaPolygon.coordinates.bottomLeft h
      leftPolygons := initVerticalSubAreas g.areaPolygon.coordinates.topLeft
        (centerOf (buildFunctionParameters c.topLeft c.topRight))
        (centerOf (buildFunctionParameters c.bottomLeft c.bottomRight))
        g.areaPolygon.coordinates.bottomLeft v
      rightPolygons := initVerticalSubAreas
        (centerOf (buildFunctionParameters c.topLeft c.topRight))
        g.areaPolygon.coordinates.topRight g.areaPolygon.coordinates.bottomRight
        (centerOf (buildFunctionParameters c.bottomLeft c.bottomRight)) v } := by
  unfold Grid.initSubAreas
  rw [hst]
  simp only [hparams, buildAllFunctionParameters, calculateCenterCoordinates]
  rfl

theorem create_isSome (v h : ℕ) : ∃ g : Grid, Grid.create v h = some g ∧
    g.verticalSubdivisions = v ∧ g.horizontalSubdivisions = h ∧
    ∃ st, g.areaPolygon.isPointInsideStrategy = some st := by
  unfold Grid.create
  rw [initSubAreas_eq _ (PointInsideStrategy.fresh.prepareStrategy Polygon.fresh.coordinates)
    Polygon.fresh.coordinates v h rfl (params_prepareStrategy _ _)]
  exact ⟨_, rfl, rfl, rfl, _, rfl⟩

theorem setCoordinates_eq (g : Grid) (st : PointInsideStrategy) (c : Coordinates)
    (hst : g.areaPolygon.isPointInsideStrategy = some st) :
    g.setCoordinates c = some
      { topPolygons := initHorizontalSubAreas c.topLeft c.topRight
          (centerOf (buildFunctionParameters c.topRight c.bottomRight))
          (centerOf (buildFunctionParameters c.topLeft c.bottomLeft)) g.horizontalSubdivisions
        bottomPolygons := initHorizontalSubAreas
          (centerOf (buildFunctionParameters c.topLeft c.bottomLeft))
          (centerOf (buildFunctionParameters c.topRight c.bottomRight))
          c.bottomRight c.bottomLeft g.horizontalSubdivisions
        leftPolygons := initVerticalSubAreas c.topLeft
          (centerOf (buildFunctionParameters c.topLeft c.topRight))
          (centerOf (buildFunctionParameters c.bottomLeft c.bottomRight))
          c.bottomLeft g.verticalSubdivisions
        rightPolygons := initVerticalSubAreas
          (centerOf (buildFunctionParameters c.topLeft c.topRight))
          c.topRight c.bottomRight
          (centerOf (buildFunctionParameters c.bottomLeft c.bottomRight)) g.verticalSubdivisions
        areaPolygon := { coordinates := c, isPointInsideStrategy := some (st.prepareStrategy c) }
        verticalSubdivisions := g.verticalSubdivisions
        horizontalSubdivisions := g.horizontalSubdivisions } := by
  unfold Grid.setCoordinates
  rw [initSubAreas_eq _ (st.prepareStrategy c) c _ _
    (by simp [Polygon.setCoordinates, hst]) (params_prepareStrategy _ _)]
  simp [Polygon.setCoordinates, hst]

/-! ## C8: the number of regions per band -/

/-- C8: `new Grid(rowBands, columnBands)` succeeds, setting any coordinates on it succeeds,
and `getRegions()` then holds rowBands left regions, rowBands right regions, columnBands top
regions and columnBands bottom regions (none for a count of 0). -/
theorem C8_band_counts (rowBands columnBands : ℕ) (c : Coordinates) :
    ∃ g0 g : Grid, Grid.create rowBands columnBands = some g0 ∧ g0.setCoordinates c = some g ∧
      g.getRegions.left.length = rowBands ∧ g.getRegions.right.length = rowBands ∧
      g.getRegions.top.length = columnBands ∧ g.getRegions.bottom.length = columnBands := by
  obtain ⟨g0, hg0, hv, hh, st, hst⟩ := create_isSome rowBands columnBands
  refine ⟨g0, _, hg0, setCoordinates_eq g0 st c hst, ?_, ?_, ?_, ?_⟩ <;>
    simp [Grid.getRegions, initVerticalSubAreas, initHorizontalSubAreas, hv, hh]

theorem getElem?_boundaries_prepareStrategy_of_le (s : PointInsideStrategy) (c : Coordinates)
    (y : ℕ) (hy : 480 ≤ y) : (s.prepareStrategy c).boundaries[y]? = none := by
  rw [boundaries_prepareStrategy]
  simp [hy]

/-- The covered rows of an axis-aligned rectangle inside the canvas. -/
theorem mem_coveredRows_rectangle (s : PointInsideStrategy) (x0 y0 x1 y1 : ℚ) (hx0 : 0 ≤ x0)
    (hx : x0 < x1) (hx1 : x1 ≤ 640) (hy0 : 0 ≤ y0) (hy : y0 < y1) (hy1 : y1 < 480) (y : ℕ) :
    y ∈ coveredRows (s.prepareStrategy (rectangle x0 y0 x1 y1)).getRegion ↔
      y0 ≤ (y : ℚ) ∧ (y : ℚ) ≤ y1 := by
  unfold coveredRows
  rw [List.mem_map]
  constructor
  · rintro ⟨row, hmem, rfl⟩
    rw [mem_getRegion] at hmem
    obtain ⟨hb, hne⟩ := hmem
    by_cases hlt : row.y < 480
    · rw [getElem?_boundaries_prepareStrategy _ _ _ hlt,
        tableRow_rectangle x0 y0 x1 y1 hx0 hx hx1 hy0 hy hy1] at hb
      by_contra hcon
      rw [if_neg hcon] at hb
      simp only [uncovered, Option.some.injEq, Boundaries.mk.injEq] at hb
      rcases hne with h | h
      · exact h hb.1.symm
      · exact h hb.2.symm
    · rw [getElem?_boundaries_prepareStrategy_of_le _ _ _ (not_lt.mp hlt)] at hb
      simp at hb
  · intro hrow
    have hlt : y < 480 := by
      have : (y : ℚ) < 480 := lt_of_le_of_lt hrow.2 hy1
      exact_mod_cast this
    refine ⟨{ min := x0, max := x1, y := y }, ?_, rfl⟩
    rw [mem_getRegion]
    refine ⟨?_, Or.inr ?_⟩
    · show (s.prepareStrategy (rectangle x0 y0 x1 y1)).boundaries[y]? = _
      rw [getElem?_boundaries_prepareStrategy _ _ _ hlt,
        tableRow_rectangle x0 y0 x1 y1 hx0 hx hx1 hy0 hy hy1, if_pos hrow]
    · show x1 ≠ -1
      linarith

theorem getRegion_subPolygon (c : Coordinates) :
    (subPolygon c).getRegion = (PointInsideStrategy.fresh.prepareStrategy c).getRegion := by
  rfl

theorem centerOf_horizontal (x0 x1 y : ℚ) (h : x0 ≠ x1) :
    centerOf (buildFunctionParameters ⟨x0, y⟩ ⟨x1, y⟩) = ⟨(x0 + x1) / 2, y⟩ := by
  have hne : x0 - x1 ≠ 0 := sub_ne_zero.mpr h
  simp [centerOf, buildFunctionParameters, hne]


theorem rectangle_leftPolygons (x0 y0 x1 y1 : ℚ) (hx : x0 ≠ x1) :
    initVerticalSubAreas ⟨x0, y0⟩ (centerOf (buildFunctionParameters ⟨x0, y0⟩ ⟨x1, y0⟩))
        (centerOf (buildFunctionParameters ⟨x0, y1⟩ ⟨x1, y1⟩)) ⟨x0, y1⟩ 2 =
      [subPolygon (rectangle x0 y0 ((x0 + x1) / 2) ((y0 + y1) / 2)),
       subPolygon (rectangle x0 ((y0 + y1) / 2) ((x0 + x1) / 2) y1)] := by
  rw [centerOf_horizontal x0 x1 y0 hx, centerOf_horizontal x0 x1 y1 hx]
  have e1 : y0 + (y1 - y0) / 2 = (y0 + y1) / 2 := by ring
  have e2 : y0 + (y1 - y0) / 2 * 2 = y1 := by ring
  simp only [initVerticalSubAreas, List.range_succ, List.range_zero, List.nil_append,
    List.cons_append, List.map_cons, List.map_nil, rectangle, sub_self, zero_div, zero_mul,
    add_zero, Nat.cast_zero, Nat.cast_one, Nat.cast_ofNat, mul_zero, mul_one, zero_add, e1, e2,
    one_add_one_eq_two]

theorem rectangle_rightPolygons (x0 y0 x1 y1 : ℚ) (hx : x0 ≠ x1) :
    initVerticalSubAreas (centerOf (buildFunctionParameters ⟨x0, y0⟩ ⟨x1, y0⟩)) ⟨x1, y0⟩
        ⟨x1, y1⟩ (centerOf (buildFunctionParameters ⟨x0, y1⟩ ⟨x1, y1⟩)) 2 =
      [subPolygon (rectangle ((x0 + x1) / 2) y0 x1 ((y0 + y1) / 2)),
       subPolygon (rectangle ((x0 + x1) / 2) ((y0 + y1) / 2) x1 y1)] := by
  rw [centerOf_horizontal x0 x1 y0 hx, centerOf_horizontal x0 x1 y1 hx]
  have e1 : y0 + (y1 - y0) / 2 = (y0 + y1) / 2 := by ring
  have e2 : y0 + (y1 - y0) / 2 * 2 = y1 := by ring
  simp only [initVerticalSubAreas, List.range_succ, List.range_zero, List.nil_append,
    List.cons_append, List.map_cons, List.map_nil, rectangle, sub_self, zero_div, zero_mul,
    add_zero, Nat.cast_zero, Nat.cast_one, Nat.cast_ofNat, mul_zero, mul_one, zero_add, e1, e2,
    one_add_one_eq_two]

/-- The grid `new Grid(2, 0)` after its coordinates are set to the rectangle (x0,y0), (x1,y0),
(x1,y1), (x0,y1): with xm = (x0+x1)/2 and ym = (y0+y1)/2, the left band holds the rectangles
(x0,y0)-(xm,ym) and (x0,ym)-(xm,y1), the right band the rectangles (xm,y0)-(x1,ym) and
(xm,ym)-(x1,y1), the top and bottom bands are empty. -/
theorem rectangle_grid_regions (x0 y0 x1 y1 : ℚ) (hx : x0 ≠ x1) :
    ∃ g0 g : Grid, Grid.create 2 0 = some g0 ∧
      g0.setCoordinates (rectangle x0 y0 x1 y1) = some g ∧
      g.getRegions =
        { main := (PointInsideStrategy.fresh.prepareStrategy (rectangle x0 y0 x1 y1)).getRegion
          top := []
          bottom := []
          left :=
            [(PointInsideStrategy.fresh.prepareStrategy
                (rectangle x0 y0 ((x0 + x1) / 2) ((y0 + y1) / 2))).getRegion,
             (PointInsideStrategy.fresh.prepareStrategy
                (rectangle x0 ((y0 + y1) / 2) ((x0 + x1) / 2) y1)).getRegion]
          right :=
            [(PointInsideStrategy.fresh.prepareStrategy
                (rectangle ((x0 + x1) / 2) y0 x1 ((y0 + y1) / 2))).getRegion,
             (PointInsideStrategy.fresh.prepareStrategy
                (rectangle ((x0 + x1) / 2) ((y0 + y1) / 2) x1 y1)).getRegion] } := by
  obtain ⟨g0, hg0, hv, hh, st, hst⟩ := create_isSome 2 0
  refine ⟨g0, _, hg0, setCoordinates_eq g0 st _ hst, ?_⟩
  have hl := rectangle_leftPolygons x0 y0 x1 y1 hx
  have hr := rectangle_rightPolygons x0 y0 x1 y1 hx
  have hmain : ∀ (c : Coordinates) (s : PointInsideStrategy),
      Polygon.getRegion { coordinates := c, isPointInsideStrategy := some s } = s.getRegion :=
    fun _ _ => rfl
  have hc : ∀ a b c d : ℚ, (rectangle a b c d).topLeft = ⟨a, b⟩ ∧
      (rectangle a b c d).topRight = ⟨c, b⟩ ∧ (rectangle a b c d).bottomRight = ⟨c, d⟩ ∧
      (rectangle a b c d).bottomLeft = ⟨a, d⟩ := fun _ _ _ _ => ⟨rfl, rfl, rfl, rfl⟩
  simp only [Grid.getRegions, hv, hh, hc, hl, hr, List.map_cons, List.map_nil,
    initHorizontalSubAreas, List.range_zero, getRegion_subPolygon, hmain]
  rw [prepareStrategy_eq st, ← prepareStrategy_eq PointInsideStrategy.fresh]

/-! ## C9: the row bands of a square -/

/-- C9 as stated fails: in `new Grid(2, 0)` on the square (50,50), (300,50), (300,300),
(50,300) the two left regions both cover row 175, so their row sets are not disjoint. -/
theorem C9_counterexample :
    ∃ g0 g : Grid, ∃ l0 l1 : List Row, Grid.create 2 0 = some g0 ∧
      g0.setCoordinates (rectangle 50 50 300 300) = some g ∧ g.getRegions.left = [l0, l1] ∧
      175 ∈ coveredRows l0 ∧ 175 ∈ coveredRows l1 := by
  obtain ⟨g0, g, hg0, hg, hregions⟩ := rectangle_grid_regions 50 50 300 300 (by norm_num)
  refine ⟨g0, g, _, _, hg0, hg, by rw [hregions], ?_, ?_⟩
  · rw [mem_coveredRows_rectangle _ _ _ _ _ (by norm_num) (by norm_num) (by norm_num)
      (by norm_num) (by norm_num) (by norm_num)]
    norm_num
  · rw [mem_coveredRows_rectangle _ _ _ _ _ (by norm_num) (by norm_num) (by norm_num)
      (by norm_num) (by norm_num) (by norm_num)]
    norm_num

/-- C9 (amended): for an axis-aligned rectangle (x0,y0), (x1,y0), (x1,y1), (x0,y1) inside the
canvas, such as the square (50,50), (300,50), (300,300), (50,300), `new Grid(2, 0)` has two
left regions, two right regions and no top or bottom region; the rows covered by the two
left regions together are exactly the rows covered by the main region, and a row is covered
by both exactly when y = (y0 + y1) / 2, the row of the shared edge; the same holds for the
two right regions. -/
theorem C9_rectangle_row_bands (x0 y0 x1 y1 : ℚ) (hx0 : 0 ≤ x0) (hx : x0 < x1)
    (hx1 : x1 ≤ 640) (hy0 : 0 ≤ y0) (hy : y0 < y1) (hy1 : y1 < 480) :
    ∃ g0 g : Grid, ∃ l0 l1 r0 r1 : List Row, Grid.create 2 0 = some g0 ∧
      g0.setCoordinates (rectangle x0 y0 x1 y1) = some g ∧
      g.getRegions.left = [l0, l1] ∧ g.getRegions.right = [r0, r1] ∧
      g.getRegions.top = [] ∧ g.getRegions.bottom = [] ∧
      (∀ y : ℕ, (y ∈ coveredRows l0 ∧ y ∈ coveredRows l1) ↔ (y : ℚ) = (y0 + y1) / 2) ∧
      (∀ y : ℕ, y ∈ coveredRows g.getRegions.main ↔ y ∈ coveredRows l0 ∨ y ∈ coveredRows l1) ∧
      (∀ y : ℕ, (y ∈ coveredRows r0 ∧ y ∈ coveredRows r1) ↔ (y : ℚ) = (y0 + y1) / 2) ∧
      (∀ y : ℕ, y ∈ coveredRows g.getRegions.main ↔ y ∈ coveredRows r0 ∨ y ∈ coveredRows r1) := by
  obtain ⟨g0, g, hg0, hg, hregions⟩ := rectangle_grid_regions x0 y0 x1 y1 (ne_of_lt hx)
  have hmain := mem_coveredRows_rectangle PointInsideStrategy.fresh x0 y0 x1 y1 hx0 hx hx1 hy0
    hy hy1
  have hl0 := mem_coveredRows_rectangle PointInsideStrategy.fresh x0 y0 ((x0 + x1) / 2)
    ((y0 + y1) / 2) hx0 (by linarith) (by linarith) hy0 (by linarith) (by linarith)
  have hl1 := mem_coveredRows_rectangle PointInsideStrategy.fresh x0 ((y0 + y1) / 2)
    ((x0 + x1) / 2) y1 hx0 (by linarith) (by linarith) (by linarith) (by linarith) hy1
  have hr0 := mem_coveredRows_rectangle PointInsideStrategy.fresh ((x0 + x1) / 2) y0 x1
    ((y0 + y1) / 2) (by linarith) (by linarith) hx1 hy0 (by linarith) (by linarith)
  have hr1 := mem_coveredRows_rectangle PointInsideStrategy.fresh ((x0 + x1) / 2)
    ((y0 + y1) / 2) x1 y1 (by linarith) (by linarith) hx1 (by linarith) (by linarith) hy1
  have hm : g.getRegions.main =
      (PointInsideStrategy.fresh.prepareStrategy (rectangle x0 y0 x1 y1)).getRegion := by
    rw [hregions]
  rw [← hm] at hmain
  refine ⟨g0, g, _, _, _, _, hg0, hg, by rw [hregions], by rw [hregions], by rw [hregions],
    by rw [hregions], ?_, ?_, ?_, ?_⟩
  · intro y
    rw [hl0, hl1]
    constructor
    · rintro ⟨⟨_, h1⟩, ⟨h2, _⟩⟩
      exact le_antisymm h1 h2
    · intro h
      rw [h]
      exact ⟨⟨by linarith, le_refl _⟩, ⟨le_refl _, by linarith⟩⟩
  · intro y
    rw [hmain, hl0, hl1]
    constructor
    · rintro ⟨h1, h2⟩
      rcases le_total (y : ℚ) ((y0 + y1) / 2) with h | h
      · exact Or.inl ⟨h1, h⟩
      · exact Or.inr ⟨h, h2⟩
    · rintro (⟨h1, h2⟩ | ⟨h1, h2⟩)
      · exact ⟨h1, by linarith⟩
      · exact ⟨by linarith, h2⟩
  · intro y
    rw [hr0, hr1]
    constructor
    · rintro ⟨⟨_, h1⟩, ⟨h2, _⟩⟩
      exact le_antisymm h1 h2
    · intro h
      rw [h]
      exact ⟨⟨by linarith, le_refl _⟩, ⟨le_refl _, by linarith⟩⟩
  · intro y
    rw [hmain, hr0, hr1]
    constructor
    · rintro ⟨h1, h2⟩
      rcases le_total (y : ℚ) ((y0 + y1) / 2) with h | h
      · exact Or.inl ⟨h1, h⟩
      · exact Or.inr ⟨h, h2⟩
    · rintro (⟨h1, h2⟩ | ⟨h1, h2⟩)
      · exact ⟨h1, by linarith⟩
      · exact ⟨by linarith, h2⟩

/-- C9 (amended) at the square (50,50), (300,50), (300,300), (50,300), where the shared row
is (50 + 300) / 2 = 175. -/
theorem C9_rectangle_row_bands_witness :
    ∃ g0 g : Grid, ∃ l0 l1 r0 r1 : List Row, Grid.create 2 0 = some g0 ∧
      g0.setCoordinates (rectangle 50 50 300 300) = some g ∧
      g.getRegions.left = [l0, l1] ∧ g.getRegions.right = [r0, r1] ∧
      g.getRegions.top = [] ∧ g.getRegions.bottom = [] ∧
      (∀ y : ℕ, (y ∈ coveredRows l0 ∧ y ∈ coveredRows l1) ↔ (y : ℚ) = (50 + 300) / 2) ∧
      (∀ y : ℕ, y ∈ coveredRows g.getRegions.main ↔ y ∈ coveredRows l0 ∨ y ∈ coveredRows l1) ∧
      (∀ y : ℕ, (y ∈ coveredRows r0 ∧ y ∈ coveredRows r1) ↔ (y : ℚ) = (50 + 300) / 2) ∧
      (∀ y : ℕ, y ∈ coveredRows g.getRegions.main ↔ y ∈ coveredRows r0 ∨ y ∈ coveredRows r1) :=
  C9_rectangle_row_bands 50 50 300 300 (by norm_num) (by norm_num) (by norm_num) (by norm_num)
    (by norm_num) (by norm_num)

/-! ## C10: rebuilding from the same corners -/

/-- C10: whatever the state before, `prepareStrategy` on the same corners a second time
yields the same table row by row, and the table has 480 rows each time; setting the same
coordinates on a polygon twice leaves the polygon as after the first time. -/
theorem C10_rebuild_idempotent (s : PointInsideStrategy) (c : Coordinates) (p : Polygon) :
    ((s.prepareStrategy c).prepareStrategy c).boundaries = (s.prepareStrategy c).boundaries ∧
      (s.prepareStrategy c).boundaries.length = 480 ∧
      ((s.prepareStrategy c).prepareStrategy c).boundaries.length = 480 ∧
      (p.setCoordinates c).setCoordinates c = p.setCoordinates c := by
  refine ⟨?_, ?_, ?_, ?_⟩
  · rw [prepareStrategy_eq (s.prepareStrategy c) c, prepareStrategy_eq s c]
  · rw [boundaries_prepareStrategy]
    simp
  · rw [boundaries_prepareStrategy]
    simp
  · cases p with
    | mk coordinates strategy =>
      cases strategy with
      | none => rfl
      | some t =>
        simp only [Polygon.setCoordinates, Option.map_some']
        rw [prepareStrategy_eq (t.prepareStrategy c) c, prepareStrategy_eq t c]

/-! ## Further lemmas on the table and the grid -/

theorem length_boundaries_prepareStrategy (s : PointInsideStrategy) (c : Coordinates) :
    (s.prepareStrategy c).boundaries.length = 480 := by
  rw [boundaries_prepareStrategy]
  simp

theorem foldl_min_le (rs : List ℚ) (r : ℚ) : rs.foldl Min.min r ≤ r := by
  induction rs generalizing r with
  | nil => exact le_refl r
  | cons q rs ih => exact le_trans (ih (Min.min r q)) (min_le_left r q)

theorem le_foldl_max (rs : List ℚ) (r : ℚ) : r ≤ rs.foldl Max.max r := by
  induction rs generalizing r with
  | nil => exact le_refl r
  | cons q rs ih => exact le_trans (le_max_left r q) (ih (Max.max r q))

theorem calculateBoundaries_min_le_max (s : PointInsideStrategy)
    (params : List FunctionParameters) (y : ℚ) :
    (calculateBoundaries s params y).min ≤ (calculateBoundaries s params y).max := by
  unfold calculateBoundaries
  split_ifs
  · exact le_refl _
  · cases scanSegments s.minX s.maxX y params [] with
    | nil => exact le_refl _
    | cons r results => exact le_trans (foldl_min_le results r) (le_foldl_max results r)

/-- Setting coordinates on a grid whose main polygon has a strategy yields the grid derived
from the new corners and the two counts alone. -/
theorem setCoordinates_eq_builtGrid (g : Grid) (st : PointInsideStrategy) (c : Coordinates)
    (hst : g.areaPolygon.isPointInsideStrategy = some st) :
    g.setCoordinates c = some (builtGrid g.verticalSubdivisions g.horizontalSubdivisions c) := by
  rw [setCoordinates_eq g st c hst, prepareStrategy_eq st c,
    ← prepareStrategy_eq PointInsideStrategy.fresh c]
  rfl

theorem coordinates_subPolygon (c : Coordinates) : (subPolygon c).coordinates = c := rfl

/-! ## C11: rows outside the table -/

/-- C11: for every corner set and every point p whose y is not one of the integers 0, ..., 479,
`isPointInside(p)` returns false (the function is total: nothing is thrown). -/
theorem C11_outside_rows_not_contained (s : PointInsideStrategy) (c : Coordinates) (p : Point)
    (h : ∀ n : ℕ, n < 480 → (n : ℚ) ≠ p.y) :
    (s.prepareStrategy c).isPointInside p = false := by
  unfold PointInsideStrategy.isPointInside
  cases hb : boundariesAt (s.prepareStrategy c).boundaries p.y with
  | none => rfl
  | some b =>
    obtain ⟨n, hn, hbn⟩ := boundariesAt_eq_some _ _ _ hb
    have hlt : n < 480 := by
      have h1 := (List.getElem?_eq_some.mp hbn).1
      rwa [length_boundaries_prepareStrategy] at h1
    exact absurd hn (h n hlt)

/-- C11 at the corners (-50,-50), (700,-50), (700,500), (-50,500), which lie outside the
canvas, and the point (100, 480): the row 480 is outside the table. -/
theorem C11_outside_rows_not_contained_witness :
    (PointInsideStrategy.fresh.prepareStrategy (rectangle (-50) (-50) 700 500)).isPointInside
      ⟨100, 480⟩ = false := by
  apply C11_outside_rows_not_contained
  intro n hn heq
  have h1 : (n : ℚ) = 480 := heq
  have h2 : n = 480 := by exact_mod_cast h1
  omega

/-! ## C12: the table invariant -/

/-- C12: after `prepareStrategy`, whatever the state before and whatever coordinate edits
preceded it, the table has 480 entries, one at each index y = 0, ..., 479, and every entry
satisfies min <= max. -/
theorem C12_table_invariant (s : PointInsideStrategy) (edits : List Coordinates)
    (c : Coordinates) :
    ((edits.foldl (fun (t : PointInsideStrategy) (e : Coordinates) => t.prepareStrategy e)
        s).prepareStrategy c).boundaries.length = 480 ∧
      (∀ y : ℕ, y < 480 → ∃ b : Boundaries,
        ((edits.foldl (fun (t : PointInsideStrategy) (e : Coordinates) => t.prepareStrategy e)
          s).prepareStrategy c).boundaries[y]? = some b ∧ b.min ≤ b.max) ∧
      (∀ b ∈ ((edits.foldl
          (fun (t : PointInsideStrategy) (e : Coordinates) => t.prepareStrategy e)
          s).prepareStrategy c).boundaries, b.min ≤ b.max) := by
  generalize edits.foldl
    (fun (t : PointInsideStrategy) (e : Coordinates) => t.prepareStrategy e) s = t
  refine ⟨length_boundaries_prepareStrategy t c, ?_, ?_⟩
  · intro y hy
    exact ⟨tableRow c y, getElem?_boundaries_prepareStrategy t c y hy,
      calculateBoundaries_min_le_max _ _ _⟩
  · intro b hb
    rw [boundaries_prepareStrategy, List.mem_map] at hb
    obtain ⟨y, _, rfl⟩ := hb
    exact calculateBoundaries_min_le_max _ _ _

/-- C12 after the edits (0,0)x4 and the flipped square, on the square (50,50), (300,50),
(300,300), (50,300): row 100 exists and its entry satisfies min <= max. -/
theorem C12_table_invariant_witness :
    ∃ b : Boundaries,
      (([degenerate ⟨0, 0⟩, flippedSquare].foldl
        (fun (t : PointInsideStrategy) (e : Coordinates) => t.prepareStrategy e)
        PointInsideStrategy.fresh).prepareStrategy (rectangle 50 50 300 300)).boundaries[100]?
        = some b ∧ b.min ≤ b.max :=
  (C12_table_invariant PointInsideStrategy.fresh [degenerate ⟨0, 0⟩, flippedSquare]
    (rectangle 50 50 300 300)).2.1 100 (by norm_num)

/-! ## C13: the rows of `getRegion` -/

theorem pairwise_fst_enumFrom (l : List Boundaries) (n : ℕ) :
    (l.enumFrom n).Pairwise (fun (a b : ℕ × Boundaries) => a.1 < b.1) := by
  induction l generalizing n with
  | nil => simp
  | cons x xs ih =>
    rw [List.enumFrom_cons, List.pairwise_cons]
    refine ⟨?_, ih (n + 1)⟩
    intro b hb
    have := List.le_fst_of_mem_enumFrom hb
    show n < b.1
    omega

/-- C13: `getRegion()` holds a row `{min, max, y}` exactly when entry y of the table is
`{min, max}` and differs from the uncovered value `{min: -1, max: -1}`; its rows come in
strictly ascending order of y. -/
theorem C13_getRegion_covered_rows_ascending (s : PointInsideStrategy) :
    (∀ row : Row, row ∈ s.getRegion ↔
      s.boundaries[row.y]? = some { min := row.min, max := row.max } ∧
        ({ min := row.min, max := row.max } : Boundaries) ≠ uncovered) ∧
      s.getRegion.Pairwise (fun (a b : Row) => a.y < b.y) := by
  constructor
  · intro row
    rw [mem_getRegion]
    have h : ({ min := row.min, max := row.max } : Boundaries) ≠ uncovered ↔
        (row.min ≠ -1 ∨ row.max ≠ -1) := by
      simp only [uncovered, ne_eq, Boundaries.mk.injEq]
      tauto
    rw [h]
  · unfold PointInsideStrategy.getRegion
    apply List.Pairwise.filter
    rw [List.pairwise_map]
    exact pairwise_fst_enumFrom s.boundaries 0

/-! ## C14: a polygon without strategy -/

theorem strategy_none_of_edits (edits : List Coordinates) (q : Polygon)
    (h : q.isPointInsideStrategy = none) :
    (edits.foldl Polygon.setCoordinates q).isPointInsideStrategy = none := by
  induction edits generalizing q with
  | nil => exact h
  | cons e edits ih =>
    apply ih
    simp [Polygon.setCoordinates, h]

/-- C14: a polygon on which no strategy has been set answers false to `isPointInside` for
every point and returns the empty list from `getRegion`, before and after any number of
coordinate assignments. -/
theorem C14_default_strategy_never_contains (edits : List Coordinates) (p : Point) :
    (edits.foldl Polygon.setCoordinates Polygon.fresh).isPointInside p = false ∧
      (edits.foldl Polygon.setCoordinates Polygon.fresh).getRegion = [] := by
  have h := strategy_none_of_edits edits Polygon.fresh rfl
  constructor
  · unfold Polygon.isPointInside
    rw [h]
  · unfold Polygon.getRegion
    rw [h]

/-! ## C15: the coordinates read back -/

/-- C15: after `new Grid(v, h)` and an assignment of the coordinates c, the getter returns
the four points of c in the order topLeft, topRight, bottomRight, bottomLeft; the same
holds for the `area` setter and getter of `ImageProcessor`. -/
theorem C15_coordinates_round_trip (v h : ℕ) (c : Coordinates) :
    (∃ g0 g : Grid, Grid.create v h = some g0 ∧ g0.setCoordinates c = some g ∧
      g.coordinates = c ∧
      g.coordinates.toList = [c.topLeft, c.topRight, c.bottomRight, c.bottomLeft]) ∧
    (∃ p0 p1 : ImageProcessor, ImageProcessor.init = some p0 ∧ p0.setArea c = some p1 ∧
      p1.getArea = c ∧ p1.area.coordinates.toList =
        [c.topLeft, c.topRight, c.bottomRight, c.bottomLeft]) := by
  constructor
  · obtain ⟨g0, hg0, _, _, st, hst⟩ := create_isSome v h
    exact ⟨g0, _, hg0, setCoordinates_eq_builtGrid g0 st c hst, rfl, rfl⟩
  · obtain ⟨g0, hg0, _, _, st, hst⟩ := create_isSome 1 0
    have hinit : ImageProcessor.init = some (ImageProcessor.prepareParsers
        { area := g0, topParsers := [], bottomParsers := [], leftParsers := [],
          rightParsers := [] }) := by
      rw [ImageProcessor.init, hg0]
      rfl
    have hset : (ImageProcessor.prepareParsers
        { area := g0, topParsers := [], bottomParsers := [], leftParsers := [],
          rightParsers := [] }).setArea c =
        some (ImageProcessor.prepareParsers
          { ImageProcessor.prepareParsers
              { area := g0, topParsers := [], bottomParsers := [], leftParsers := [],
                rightParsers := [] } with
            area := builtGrid g0.verticalSubdivisions g0.horizontalSubdivisions c }) := by
      unfold ImageProcessor.setArea
      have harea : (ImageProcessor.prepareParsers
          { area := g0, topParsers := [], bottomParsers := [], leftParsers := [],
            rightParsers := [] }).area = g0 := rfl
      rw [harea, setCoordinates_eq_builtGrid g0 st c hst]
      rfl
    exact ⟨_, _, hinit, hset, rfl, rfl⟩

/-! ## C16: the bounding box -/

theorem foldl_min_bounds (lo hi : ℚ) (rs : List ℚ) (r : ℚ) (hr : lo ≤ r ∧ r ≤ hi)
    (hrs : ∀ q ∈ rs, lo ≤ q ∧ q ≤ hi) : lo ≤ rs.foldl Min.min r ∧ rs.foldl Min.min r ≤ hi := by
  induction rs generalizing r with
  | nil => exact hr
  | cons q rs ih =>
    have hq := hrs q (List.mem_cons_self _ _)
    exact ih (Min.min r q) ⟨le_min hr.1 hq.1, le_trans (min_le_left _ _) hr.2⟩
      (fun z hz => hrs z (List.mem_cons_of_mem _ hz))

theorem foldl_max_bounds (lo hi : ℚ) (rs : List ℚ) (r : ℚ) (hr : lo ≤ r ∧ r ≤ hi)
    (hrs : ∀ q ∈ rs, lo ≤ q ∧ q ≤ hi) : lo ≤ rs.foldl Max.max r ∧ rs.foldl Max.max r ≤ hi := by
  induction rs generalizing r with
  | nil => exact hr
  | cons q rs ih =>
    have hq := hrs q (List.mem_cons_self _ _)
    exact ih (Max.max r q) ⟨le_trans hr.1 (le_max_left _ _), max_le hr.2 hq.2⟩
      (fun z hz => hrs z (List.mem_cons_of_mem _ hz))

theorem corner_y_bounds (c : Coordinates) :
    (c.smallestY ≤ c.topLeft.y ∧ c.topLeft.y ≤ c.largestY) ∧
      (c.smallestY ≤ c.topRight.y ∧ c.topRight.y ≤ c.largestY) ∧
      (c.smallestY ≤ c.bottomRight.y ∧ c.bottomRight.y ≤ c.largestY) ∧
      (c.smallestY ≤ c.bottomLeft.y ∧ c.bottomLeft.y ≤ c.largestY) := by
  simp [Coordinates.smallestY, Coordinates.largestY]

/-- The stored extrema enclose the x of every corner. -/
theorem extrema_x_bounds (s : PointInsideStrategy) (c : Coordinates) (q : Point)
    (hq : q ∈ c.toList) :
    (calculateMinMaxCoordinates s c).minX ≤ q.x ∧ q.x ≤ (calculateMinMaxCoordinates s c).maxX := by
  simp only [Coordinates.toList, List.mem_cons, List.mem_singleton, List.mem_nil_iff,
    or_false] at hq
  simp only [calculateMinMaxCoordinates, Coordinates.toList, List.foldl_cons, List.foldl_nil]
  rcases hq with rfl | rfl | rfl | rfl <;> simp

theorem calculateAllBoundariesRounded_range (rnd : ℚ → ℚ) (params : List FunctionParameters)
    (n : ℕ) (s : PointInsideStrategy) :
    (List.range n).foldl
      (fun (t : PointInsideStrategy) (y : ℕ) =>
        { t with
          boundaries := t.boundaries ++ [calculateBoundariesRounded rnd t params (y : ℚ)] }) s
    = { s with boundaries := s.boundaries ++
          (List.range n).map (fun (y : ℕ) => calculateBoundariesRounded rnd s params (y : ℚ)) } := by
  induction n with
  | zero => simp
  | succ n ih =>
    rw [List.range_succ, List.foldl_append, ih]
    simp only [List.foldl_cons, List.foldl_nil, List.map_append, List.map_cons, List.map_nil,
      List.append_assoc]
    congr 3

/-- The state after `prepareStrategyRounded` does not depend on the state before it. -/
theorem prepareStrategyRounded_eq (rnd : ℚ → ℚ) (s : PointInsideStrategy) (c : Coordinates) :
    s.prepareStrategyRounded rnd c =
      { calculateMinMaxCoordinates PointInsideStrategy.fresh c with
        boundaries := (List.range 480).map (tableRowRounded rnd c)
        params := buildAllFunctionParametersRounded rnd c } := by
  simp only [PointInsideStrategy.prepareStrategyRounded, calculateAllBoundariesRounded,
    calculateAllBoundariesRounded_range, List.nil_append]
  congr 1

theorem boundaries_prepareStrategyRounded (rnd : ℚ → ℚ) (s : PointInsideStrategy)
    (c : Coordinates) :
    (s.prepareStrategyRounded rnd c).boundaries = (List.range 480).map (tableRowRounded rnd c) := by
  rw [prepareStrategyRounded_eq]

theorem getElem?_boundaries_prepareStrategyRounded (rnd : ℚ → ℚ) (s : PointInsideStrategy)
    (c : Coordinates) (y : ℕ) (hy : y < 480) :
    (s.prepareStrategyRounded rnd c).boundaries[y]? = some (tableRowRounded rnd c y) := by
  rw [boundaries_prepareStrategyRounded, List.getElem?_map, List.getElem?_range hy]
  rfl

theorem params_prepareStrategyRounded (rnd : ℚ → ℚ) (s : PointInsideStrategy)
    (c : Coordinates) :
    (s.prepareStrategyRounded rnd c).params = buildAllFunctionParametersRounded rnd c := by
  rw [prepareStrategyRounded_eq]

/-- With the identity as rounding the rounded segment parameters are the exact ones. -/
theorem buildFunctionParametersRounded_id (a b : Point) :
    buildFunctionParametersRounded id a b = buildFunctionParameters a b := rfl

/-- With the identity as rounding the rounded segment loop is the exact one. -/
theorem scanSegmentsRounded_id (minX maxX y : ℚ) (params : List FunctionParameters)
    (results : List ℚ) :
    scanSegmentsRounded id minX maxX y params results = scanSegments minX maxX y params results := by
  induction params generalizing results with
  | nil => rfl
  | cons p rest ih =>
    rw [scanSegmentsRounded, scanSegments]
    simp only [ih, id]

/-- With the identity as rounding the rounded table row is the exact one. -/
theorem tableRowRounded_id (c : Coordinates) (y : ℕ) : tableRowRounded id c y = tableRow c y := by
  simp only [tableRowRounded, tableRow, calculateBoundariesRounded, calculateBoundaries,
    scanSegmentsRounded_id, buildAllFunctionParametersRounded, buildAllFunctionParameters,
    buildFunctionParametersRounded_id]

/-- With the identity as rounding `prepareStrategyRounded` is `prepareStrategy`. -/
theorem prepareStrategyRounded_id (s : PointInsideStrategy) (c : Coordinates) :
    s.prepareStrategyRounded id c = s.prepareStrategy c := by
  have h1 : buildAllFunctionParametersRounded id c = buildAllFunctionParameters c := rfl
  have h2 : (List.range 480).map (tableRowRounded id c) = (List.range 480).map (tableRow c) :=
    List.map_congr_left (fun y _ => tableRowRounded_id c y)
  rw [prepareStrategyRounded_eq, prepareStrategy_eq, h1, h2]

theorem buildFunctionParametersRounded_ends (rnd : ℚ → ℚ) (a b : Point) :
    (buildFunctionParametersRounded rnd a b).a = a ∧
      (buildFunctionParametersRounded rnd a b).b = b := by
  unfold buildFunctionParametersRounded
  split_ifs <;> exact ⟨rfl, rfl⟩

/-- Every value that the rounded segment loop pushes lies in [minX, maxX], provided the
ends of every segment do: a sloped candidate passes the filter, the other values are
x-values of ends. -/
theorem scanSegmentsRounded_bounds (rnd : ℚ → ℚ) (minX maxX y : ℚ)
    (params : List FunctionParameters)
    (hparams : ∀ p ∈ params, ∃ a b : Point, p = buildFunctionParametersRounded rnd a b ∧
      (minX ≤ a.x ∧ a.x ≤ maxX) ∧ (minX ≤ b.x ∧ b.x ≤ maxX)) (results : List ℚ)
    (hresults : ∀ r ∈ results, minX ≤ r ∧ r ≤ maxX) :
    ∀ r ∈ scanSegmentsRounded rnd minX maxX y params results, minX ≤ r ∧ r ≤ maxX := by
  induction params generalizing results with
  | nil => simpa [scanSegmentsRounded] using hresults
  | cons p rest ih =>
    obtain ⟨a, b, hp, hab, hbb⟩ := hparams p (List.mem_cons_self _ _)
    have hrest : ∀ q ∈ rest, ∃ a b : Point, q = buildFunctionParametersRounded rnd a b ∧
        (minX ≤ a.x ∧ a.x ≤ maxX) ∧ (minX ≤ b.x ∧ b.x ≤ maxX) :=
      fun q hq => hparams q (List.mem_cons_of_mem _ hq)
    have hpush : ∀ v : ℚ, minX ≤ v ∧ v ≤ maxX →
        ∀ r ∈ results ++ [v], minX ≤ r ∧ r ≤ maxX := by
      intro v hv r hr
      rcases List.mem_append.mp hr with h | h
      · exact hresults r h
      · rw [List.mem_singleton.mp h]
        exact hv
    subst hp
    rw [scanSegmentsRounded]
    by_cases hx : rnd (a.x - b.x) = 0
    · simp only [buildFunctionParametersRounded, hx, if_true]
      split_ifs
      all_goals first
        | exact ih hrest results hresults
        | exact ih hrest _ (hpush a.x hab)
        | contradiction
    · simp only [buildFunctionParametersRounded, hx, if_false]
      split_ifs with h1 h2 h3 h4 h5
      · exact ih hrest results hresults
      · exact absurd h2.1 (by simp)
      · intro r hr
        rcases List.mem_append.mp hr with h | h
        · exact hresults r h
        · simp only [List.mem_cons, List.mem_singleton, List.mem_nil_iff, or_false] at h
          rcases h with h | h
          · rw [h]; exact hab
          · rw [h]; exact hbb
      · exact ih hrest results hresults
      · exact ih hrest _ (hpush _ ⟨h5.1, h5.2⟩)
      · exact ih hrest results hresults

theorem scanSegmentsRounded_skipped (rnd : ℚ → ℚ) (minX maxX y : ℚ)
    (params : List FunctionParameters)
    (h : ∀ p ∈ params, (p.a.y < y ∧ p.b.y < y) ∨ (p.a.y > y ∧ p.b.y > y))
    (results : List ℚ) : scanSegmentsRounded rnd minX maxX y params results = results := by
  induction params with
  | nil => rfl
  | cons p rest ih =>
    rw [scanSegmentsRounded, if_pos (h p (List.mem_cons_self _ _))]
    exact ih (fun q hq => h q (List.mem_cons_of_mem _ hq))

/-- The stored `#minX` and `#maxX` in terms of the corners: the seeds 640 and 0 take part. -/
theorem stored_extrema_x (s : PointInsideStrategy) (c : Coordinates) :
    (calculateMinMaxCoordinates s c).minX = Min.min 640 c.smallestX ∧
      (calculateMinMaxCoordinates s c).maxX = Max.max 0 c.largestX := by
  simp only [calculateMinMaxCoordinates, Coordinates.toList, List.foldl_cons, List.foldl_nil,
    Coordinates.smallestX, Coordinates.largestX]
  exact ⟨by simp only [min_assoc], by simp only [max_assoc]⟩

/-- In rounded arithmetic too, a row above or below all four corners is uncovered. -/
theorem tableRowRounded_outside (rnd : ℚ → ℚ) (c : Coordinates) (y : ℕ)
    (h : (y : ℚ) < c.smallestY ∨ c.largestY < (y : ℚ)) :
    tableRowRounded rnd c y = uncovered := by
  obtain ⟨h1, h2, h3, h4⟩ := corner_y_bounds c
  have hskip : ∀ p ∈ buildAllFunctionParametersRounded rnd c,
      (p.a.y < (y : ℚ) ∧ p.b.y < (y : ℚ)) ∨ (p.a.y > (y : ℚ) ∧ p.b.y > (y : ℚ)) := by
    intro p hp
    simp only [buildAllFunctionParametersRounded, List.mem_cons, List.mem_singleton,
      List.mem_nil_iff, or_false] at hp
    rcases h with h | h
    · right
      rcases hp with rfl | rfl | rfl | rfl <;>
        simp only [(buildFunctionParametersRounded_ends rnd _ _).1,
          (buildFunctionParametersRounded_ends rnd _ _).2, gt_iff_lt] <;>
        constructor <;> linarith
    · left
      rcases hp with rfl | rfl | rfl | rfl <;>
        simp only [(buildFunctionParametersRounded_ends rnd _ _).1,
          (buildFunctionParametersRounded_ends rnd _ _).2]
        <;> constructor <;> linarith
  unfold tableRowRounded calculateBoundariesRounded
  split_ifs
  · rfl
  · rw [scanSegmentsRounded_skipped _ _ _ _ _ hskip]
    rfl

theorem calculateBoundariesRounded_min_le_max (rnd : ℚ → ℚ) (s : PointInsideStrategy)
    (params : List FunctionParameters) (y : ℚ) :
    (calculateBoundariesRounded rnd s params y).min ≤
      (calculateBoundariesRounded rnd s params y).max := by
  unfold calculateBoundariesRounded
  split_ifs
  · exact le_refl _
  · cases scanSegmentsRounded rnd s.minX s.maxX y params [] with
    | nil => exact le_refl _
    | cons r results => exact le_trans (foldl_min_le results r) (le_foldl_max results r)

/-- In rounded arithmetic a row that is not the uncovered value lies inside the stored
extrema `#minX` and `#maxX`. -/
theorem tableRowRounded_bounds (rnd : ℚ → ℚ) (c : Coordinates) (y : ℕ)
    (h : tableRowRounded rnd c y ≠ uncovered) :
    Min.min 640 c.smallestX ≤ (tableRowRounded rnd c y).min ∧
      (tableRowRounded rnd c y).min ≤ (tableRowRounded rnd c y).max ∧
      (tableRowRounded rnd c y).max ≤ Max.max 0 c.largestX := by
  obtain ⟨hlo, hhi⟩ := stored_extrema_x PointInsideStrategy.fresh c
  rw [← hlo, ← hhi]
  have hq : ∀ q ∈ c.toList,
      (calculateMinMaxCoordinates PointInsideStrategy.fresh c).minX ≤ q.x ∧
        q.x ≤ (calculateMinMaxCoordinates PointInsideStrategy.fresh c).maxX :=
    fun q hq => extrema_x_bounds PointInsideStrategy.fresh c q hq
  have h1 := hq c.topLeft (by simp [Coordinates.toList])
  have h2 := hq c.topRight (by simp [Coordinates.toList])
  have h3 := hq c.bottomRight (by simp [Coordinates.toList])
  have h4 := hq c.bottomLeft (by simp [Coordinates.toList])
  have hparams : ∀ p ∈ buildAllFunctionParametersRounded rnd c, ∃ a b : Point,
      p = buildFunctionParametersRounded rnd a b ∧
        ((calculateMinMaxCoordinates PointInsideStrategy.fresh c).minX ≤ a.x ∧
          a.x ≤ (calculateMinMaxCoordinates PointInsideStrategy.fresh c).maxX) ∧
        ((calculateMinMaxCoordinates PointInsideStrategy.fresh c).minX ≤ b.x ∧
          b.x ≤ (calculateMinMaxCoordinates PointInsideStrategy.fresh c).maxX) := by
    intro p hp
    simp only [buildAllFunctionParametersRounded, List.mem_cons, List.mem_singleton,
      List.mem_nil_iff, or_false] at hp
    rcases hp with rfl | rfl | rfl | rfl
    · exact ⟨_, _, rfl, h1, h2⟩
    · exact ⟨_, _, rfl, h1, h4⟩
    · exact ⟨_, _, rfl, h2, h3⟩
    · exact ⟨_, _, rfl, h4, h3⟩
  refine ⟨?_, calculateBoundariesRounded_min_le_max _ _ _ _, ?_⟩
  all_goals
    unfold tableRowRounded calculateBoundariesRounded at h ⊢
    split_ifs at h ⊢ with hrange
    · exact absurd rfl h
    · have hmem := scanSegmentsRounded_bounds rnd
        (calculateMinMaxCoordinates PointInsideStrategy.fresh c).minX
        (calculateMinMaxCoordinates PointInsideStrategy.fresh c).maxX (y : ℚ)
        (buildAllFunctionParametersRounded rnd c) hparams [] (by simp)
      cases hscan : scanSegmentsRounded rnd
          (calculateMinMaxCoordinates PointInsideStrategy.fresh c).minX
          (calculateMinMaxCoordinates PointInsideStrategy.fresh c).maxX (y : ℚ)
          (buildAllFunctionParametersRounded rnd c) [] with
      | nil =>
        rw [hscan] at h
        exact absurd rfl h
      | cons r rs =>
        rw [hscan] at hmem
        have hr := hmem r (List.mem_cons_self _ _)
        have hrs : ∀ q ∈ rs,
            (calculateMinMaxCoordinates PointInsideStrategy.fresh c).minX ≤ q ∧
              q ≤ (calculateMinMaxCoordinates PointInsideStrategy.fresh c).maxX :=
          fun q hq => hmem q (List.mem_cons_of_mem _ hq)
        first
          | exact (foldl_min_bounds _ _ rs r hr hrs).1
          | exact (foldl_max_bounds _ _ rs r hr hrs).2

/-- Row 46 of the table that doubles give for (656,6), (672,31), (677,41), (641,46): the
bottom segment yields 640.9999999999999, the left one 641. -/
theorem tableRowRounded_quadBeyondCanvas_46 :
    tableRowRounded roundDouble quadBeyondCanvas 46 =
      { min := 5638295627235327 / 8796093022208, max := 641 } := by
  decide!

/-- Row 46 of the table that doubles give for (16,6), (32,31), (37,41), (1,46) is the
uncovered value. -/
theorem tableRowRounded_quadInsideCanvas_46 :
    tableRowRounded roundDouble quadInsideCanvas 46 = uncovered := by
  decide!

/-- C16 as stated fails on doubles: for the corners (656,6), (672,31), (677,41), (641,46)
row 46 of the built table is `{min: 640.9999999999999, max: 641}`, a covered row, while the
smallest corner x is 641.  The bottom segment from (641,46) to (677,41) has the rounded
slope -0.1388888888888889 and base 135.02777777777777, its candidate at row 46 is
640.9999999999999 and passes the filter, the stored `#minX` being the seed 640. -/
theorem C16_counterexample :
    (PointInsideStrategy.fresh.prepareStrategyRounded roundDouble
        quadBeyondCanvas).boundaries[46]? =
        some { min := 5638295627235327 / 8796093022208, max := 641 } ∧
      ({ min := 5638295627235327 / 8796093022208, max := 641 } : Boundaries) ≠ uncovered ∧
      quadBeyondCanvas.smallestX = 641 ∧
      ¬ (quadBeyondCanvas.smallestX ≤ (5638295627235327 / 8796093022208 : ℚ)) := by
  have hx : quadBeyondCanvas.smallestX = 641 := by
    simp only [Coordinates.smallestX, quadBeyondCanvas]
    norm_num
  refine ⟨?_, ?_, hx, ?_⟩
  · rw [getElem?_boundaries_prepareStrategyRounded _ _ _ 46 (by norm_num),
      tableRowRounded_quadBeyondCanvas_46]
  · simp only [uncovered, ne_eq, Boundaries.mk.injEq, not_and]
    norm_num
  · rw [hx]
    norm_num

/-- C16, amended: for every rounding of the arithmetic (the identity gives exact arithmetic,
`roundDouble` gives doubles), every four corners and every row y of the built table, the
row is uncovered when y is below the smallest or above the largest corner y; a row that is
not uncovered satisfies min(640, min corner x) <= row.min <= row.max <= max(0, max corner x),
the two outer values being the stored `#minX` and `#maxX`; hence
min(corner x) <= row.min <= row.max <= max(corner x) whenever the smallest corner x is at
most 640 and the largest at least 0, as for corners inside the canvas. -/
theorem C16_row_within_stored_extrema (rnd : ℚ → ℚ) (s : PointInsideStrategy)
    (c : Coordinates) (y : ℕ) (b : Boundaries)
    (h : (s.prepareStrategyRounded rnd c).boundaries[y]? = some b) :
    (((y : ℚ) < c.smallestY ∨ c.largestY < (y : ℚ)) → b = uncovered) ∧
      (b ≠ uncovered →
        Min.min 640 c.smallestX ≤ b.min ∧ b.min ≤ b.max ∧ b.max ≤ Max.max 0 c.largestX) ∧
      (b ≠ uncovered → c.smallestX ≤ 640 → 0 ≤ c.largestX →
        c.smallestX ≤ b.min ∧ b.min ≤ b.max ∧ b.max ≤ c.largestX) := by
  have hy : y < 480 := by
    have h1 := (List.getElem?_eq_some.mp h).1
    rwa [boundaries_prepareStrategyRounded, List.length_map, List.length_range] at h1
  rw [getElem?_boundaries_prepareStrategyRounded rnd s c y hy, Option.some.injEq] at h
  subst h
  refine ⟨tableRowRounded_outside rnd c y, tableRowRounded_bounds rnd c y, ?_⟩
  intro hne hlo hhi
  have hb := tableRowRounded_bounds rnd c y hne
  rw [min_eq_right hlo, max_eq_right hhi] at hb
  exact hb

/-- C16 on doubles at the corners (656,6), (672,31), (677,41), (641,46), row 46: the row
`{min: 640.9999999999999, max: 641}` lies between the stored `#minX` = min(640, 641) = 640
and `#maxX` = max(0, 677) = 677. -/
theorem C16_row_within_stored_extrema_witness :
    (PointInsideStrategy.fresh.prepareStrategyRounded roundDouble
        quadBeyondCanvas).boundaries[46]? =
        some { min := 5638295627235327 / 8796093022208, max := 641 } ∧
      Min.min 640 quadBeyondCanvas.smallestX ≤ (5638295627235327 / 8796093022208 : ℚ) ∧
      (5638295627235327 / 8796093022208 : ℚ) ≤ 641 ∧
      (641 : ℚ) ≤ Max.max 0 quadBeyondCanvas.largestX := by
  have hrow : (PointInsideStrategy.fresh.prepareStrategyRounded roundDouble
      quadBeyondCanvas).boundaries[46]? =
      some { min := 5638295627235327 / 8796093022208, max := 641 } := by
    rw [getElem?_boundaries_prepareStrategyRounded _ _ _ 46 (by norm_num),
      tableRowRounded_quadBeyondCanvas_46]
  have hne : ({ min := 5638295627235327 / 8796093022208, max := 641 } : Boundaries) ≠
      uncovered := by
    simp only [uncovered, ne_eq, Boundaries.mk.injEq, not_and]
    norm_num
  exact ⟨hrow, (C16_row_within_stored_extrema roundDouble PointInsideStrategy.fresh
    quadBeyondCanvas 46 _ hrow).2.1 hne⟩

/-! ## C17: a horizontal top edge -/

theorem tableRow_horizontal_top (c : Coordinates) (t : ℕ) (ht : t < 480)
    (hl : c.topLeft.y = (t : ℚ)) (hr : c.topRight.y = (t : ℚ))
    (hx : c.topLeft.x ≠ c.topRight.x) :
    tableRow c t =
      { min := Min.min c.topLeft.x c.topRight.x, max := Max.max c.topLeft.x c.topRight.x } := by
  have ht0 : (0 : ℚ) ≤ (t : ℚ) := Nat.cast_nonneg t
  have ht1 : (t : ℚ) < 480 := by exact_mod_cast ht
  have hne : c.topLeft.x - c.topRight.x ≠ 0 := sub_ne_zero.mpr hx
  have hmin : ¬ ((t : ℚ) < Min.min (Min.min (Min.min (Min.min 480 c.topLeft.y) c.topRight.y)
      c.bottomRight.y) c.bottomLeft.y) := by
    rw [not_lt, hl]
    exact le_trans (min_le_left _ _) (le_trans (min_le_left _ _)
      (le_trans (min_le_left _ _) (min_le_right _ _)))
  have hmax : ¬ ((t : ℚ) > Max.max (Max.max (Max.max (Max.max 0 c.topLeft.y) c.topRight.y)
      c.bottomRight.y) c.bottomLeft.y) := by
    rw [gt_iff_lt, not_lt, hl]
    exact le_trans (le_trans (le_trans (le_max_right _ _) (le_max_left _ _))
      (le_max_left _ _)) (le_max_left _ _)
  simp only [tableRow, calculateBoundaries, calculateMinMaxCoordinates, Coordinates.toList,
    List.foldl_cons, List.foldl_nil, hmin, hmax, or_self, if_false,
    buildAllFunctionParameters]
  have hscan : ∀ (minX maxX : ℚ) (rest : List FunctionParameters),
      scanSegments minX maxX (t : ℚ) (buildFunctionParameters c.topLeft c.topRight :: rest) []
        = [c.topLeft.x, c.topRight.x] := by
    intro minX maxX rest
    simp [scanSegments, buildFunctionParameters, hne, hl, hr]
  rw [hscan]
  simp

/-- C17: when the top edge is horizontal at an integer row t in [0, 480) and its two ends
differ in x, row t of the table is `{min(topLeft.x, topRight.x), max(topLeft.x, topRight.x)}`
whatever the two bottom corners are: the top segment is examined first, pushes its two
endpoint x-values and ends the scan of the row. -/
theorem C17_horizontal_top_edge_row (s : PointInsideStrategy) (c : Coordinates) (t : ℕ)
    (ht : t < 480) (hl : c.topLeft.y = (t : ℚ)) (hr : c.topRight.y = (t : ℚ))
    (hx : c.topLeft.x ≠ c.topRight.x) :
    (s.prepareStrategy c).boundaries[t]? =
      some { min := Min.min c.topLeft.x c.topRight.x,
             max := Max.max c.topLeft.x c.topRight.x } := by
  rw [getElem?_boundaries_prepareStrategy s c t ht, tableRow_horizontal_top c t ht hl hr hx]

/-- C17 at topLeft (100,50), topRight (200,50), bottomRight (400,85), bottomLeft (0,45): the
bottom segment crosses row 50 at x = 50, outside the top edge, and row 50 is still
`{min: 100, max: 200}`. -/
theorem C17_horizontal_top_edge_row_witness :
    (PointInsideStrategy.fresh.prepareStrategy
      { topLeft := ⟨100, 50⟩, topRight := ⟨200, 50⟩, bottomRight := ⟨400, 85⟩,
        bottomLeft := ⟨0, 45⟩ }).boundaries[50]? = some { min := 100, max := 200 } := by
  have h := C17_horizontal_top_edge_row PointInsideStrategy.fresh
    { topLeft := ⟨100, 50⟩, topRight := ⟨200, 50⟩, bottomRight := ⟨400, 85⟩,
      bottomLeft := ⟨0, 45⟩ } 50 (by norm_num) (by norm_num) (by norm_num) (by norm_num)
  rw [h]
  norm_num

/-! ## C18: the corners of the bands -/

/-- Each end of a center axis is the midpoint of its side, for vertical and non-vertical
sides alike. -/
theorem centerOf_eq_midpoint (a b : Point) :
    centerOf (buildFunctionParameters a b) = midpoint a b := by
  unfold buildFunctionParameters
  by_cases h : a.x - b.x = 0
  · have hab : a.x = b.x := sub_eq_zero.mp h
    simp only [h, if_true, centerOf, midpoint, Point.mk.injEq, and_true]
    rw [hab]
    ring
  · simp only [h, if_false, centerOf, midpoint, Bool.false_eq_true, Option.getD_some,
      Point.mk.injEq, true_and]
    field_simp
    ring

theorem coordinates_initVerticalSubAreas_one (tL tR bR bL : Point) :
    (initVerticalSubAreas tL tR bR bL 1).map Polygon.coordinates =
      [{ topLeft := tL, topRight := tR, bottomRight := bR, bottomLeft := bL }] := by
  cases tL
  cases tR
  cases bR
  cases bL
  simp [initVerticalSubAreas, coordinates_subPolygon, List.range_succ]

theorem coordinates_initHorizontalSubAreas_one (tL tR bR bL : Point) :
    (initHorizontalSubAreas tL tR bR bL 1).map Polygon.coordinates =
      [{ topLeft := tL, topRight := tR, bottomRight := bR, bottomLeft := bL }] := by
  cases tL
  cases tR
  cases bR
  cases bL
  simp [initHorizontalSubAreas, coordinates_subPolygon, List.range_succ]

/-- C18: with rowBands = 1 the left sub-quad has the corners TL, M(TL,TR), M(BL,BR), BL and
the right sub-quad M(TL,TR), TR, BR, M(BL,BR); with columnBands = 1 the top sub-quad has
the corners TL, TR, M(TR,BR), M(TL,BL) and the bottom sub-quad M(TL,BL), M(TR,BR), BR, BL,
where M is the arithmetic midpoint; the other count n is arbitrary. -/
theorem C18_band_corners (c : Coordinates) (n : ℕ) :
    (∃ g0 g : Grid, Grid.create 1 n = some g0 ∧ g0.setCoordinates c = some g ∧
      g.leftPolygons.map Polygon.coordinates =
        [{ topLeft := c.topLeft, topRight := midpoint c.topLeft c.topRight,
           bottomRight := midpoint c.bottomLeft c.bottomRight, bottomLeft := c.bottomLeft }] ∧
      g.rightPolygons.map Polygon.coordinates =
        [{ topLeft := midpoint c.topLeft c.topRight, topRight := c.topRight,
           bottomRight := c.bottomRight,
           bottomLeft := midpoint c.bottomLeft c.bottomRight }]) ∧
    (∃ g0 g : Grid, Grid.create n 1 = some g0 ∧ g0.setCoordinates c = some g ∧
      g.topPolygons.map Polygon.coordinates =
        [{ topLeft := c.topLeft, topRight := c.topRight,
           bottomRight := midpoint c.topRight c.bottomRight,
           bottomLeft := midpoint c.topLeft c.bottomLeft }] ∧
      g.bottomPolygons.map Polygon.coordinates =
        [{ topLeft := midpoint c.topLeft c.bottomLeft,
           topRight := midpoint c.topRight c.bottomRight,
           bottomRight := c.bottomRight, bottomLeft := c.bottomLeft }]) := by
  constructor
  · obtain ⟨g0, hg0, hv, _, st, hst⟩ := create_isSome 1 n
    refine ⟨g0, _, hg0, setCoordinates_eq_builtGrid g0 st c hst, ?_, ?_⟩
    · simp only [builtGrid, hv, coordinates_initVerticalSubAreas_one, centerOf_eq_midpoint]
    · simp only [builtGrid, hv, coordinates_initVerticalSubAreas_one, centerOf_eq_midpoint]
  · obtain ⟨g0, hg0, _, hh, st, hst⟩ := create_isSome n 1
    refine ⟨g0, _, hg0, setCoordinates_eq_builtGrid g0 st c hst, ?_, ?_⟩
    · simp only [builtGrid, hh, coordinates_initHorizontalSubAreas_one, centerOf_eq_midpoint]
    · simp only [builtGrid, hh, coordinates_initHorizontalSubAreas_one, centerOf_eq_midpoint]

/-! ## C19: the sub-quads of a band -/

theorem horizontalSubArea_corners (tL tR bR bL : Point) (n i : ℕ) (hi : i < n) :
    ((initHorizontalSubAreas tL tR bR bL n).map Polygon.coordinates)[i]? =
      some { topLeft := alongSegment tL tR ((i : ℚ) / (n : ℚ))
             topRight := alongSegment tL tR (((i : ℚ) + 1) / (n : ℚ))
             bottomRight := alongSegment bL bR (((i : ℚ) + 1) / (n : ℚ))
             bottomLeft := alongSegment bL bR ((i : ℚ) / (n : ℚ)) } := by
  simp only [initHorizontalSubAreas, List.map_map, List.getElem?_map, List.getElem?_range hi,
    Option.map_some', Function.comp_apply, coordinates_subPolygon, alongSegment,
    Option.some.injEq, Coordinates.mk.injEq, Point.mk.injEq]
  refine ⟨⟨?_, ?_⟩, ⟨?_, ?_⟩, ⟨?_, ?_⟩, ⟨?_, ?_⟩⟩ <;> ring

theorem verticalSubArea_corners (tL tR bR bL : Point) (n i : ℕ) (hi : i < n) :
    ((initVerticalSubAreas tL tR bR bL n).map Polygon.coordinates)[i]? =
      some { topLeft := alongSegment tL bL ((i : ℚ) / (n : ℚ))
             topRight := alongSegment tR bR ((i : ℚ) / (n : ℚ))
             bottomRight := alongSegment tR bR (((i : ℚ) + 1) / (n : ℚ))
             bottomLeft := alongSegment tL bL (((i : ℚ) + 1) / (n : ℚ)) } := by
  simp only [initVerticalSubAreas, List.map_map, List.getElem?_map, List.getElem?_range hi,
    Option.map_some', Function.comp_apply, coordinates_subPolygon, alongSegment,
    Option.some.injEq, Coordinates.mk.injEq, Point.mk.injEq]
  refine ⟨⟨?_, ?_⟩, ⟨?_, ?_⟩, ⟨?_, ?_⟩, ⟨?_, ?_⟩⟩ <;> ring

theorem alongSegment_zero (a b : Point) (n : ℚ) : alongSegment a b ((0 : ℚ) / n) = a := by
  cases a
  simp [alongSegment]

theorem alongSegment_last (a b : Point) (n : ℕ) (hn : 1 ≤ n) :
    alongSegment a b ((((n - 1 : ℕ) : ℚ) + 1) / (n : ℚ)) = b := by
  have h1 : (((n - 1 : ℕ) : ℚ) + 1) = (n : ℚ) := by
    rw [Nat.cast_sub hn]
    simp
  have h2 : (n : ℚ) ≠ 0 := by
    have : (0 : ℚ) < (n : ℚ) := by exact_mod_cast hn
    exact ne_of_gt this
  cases b
  simp [alongSegment, h1, h2]

/-- C19: for a band with bounding corners tL, tR, bR, bL and a count n >= 1, sub-quad i of
a top or bottom band has topLeft and topRight at fractions i/n and (i+1)/n of the segment
tL-tR and bottomLeft and bottomRight at the same fractions of bL-bR; sub-quad i of a left or
right band has topLeft and bottomLeft at fractions i/n and (i+1)/n of tL-bL and topRight and
bottomRight at the same fractions of tR-bR.  Hence sub-quad 0 starts at the first two corners
of the band, sub-quad n-1 ends at its last two corners, and the trailing corners of sub-quad
i are the leading corners of sub-quad i+1. -/
theorem C19_sub_quads_chain (tL tR bR bL : Point) (n : ℕ) (hn : 1 ≤ n) :
    ((initHorizontalSubAreas tL tR bR bL n).length = n ∧
      (initVerticalSubAreas tL tR bR bL n).length = n) ∧
    (∀ i : ℕ, i < n →
      ((initHorizontalSubAreas tL tR bR bL n).map Polygon.coordinates)[i]? =
        some { topLeft := alongSegment tL tR ((i : ℚ) / (n : ℚ))
               topRight := alongSegment tL tR (((i : ℚ) + 1) / (n : ℚ))
               bottomRight := alongSegment bL bR (((i : ℚ) + 1) / (n : ℚ))
               bottomLeft := alongSegment bL bR ((i : ℚ) / (n : ℚ)) } ∧
      ((initVerticalSubAreas tL tR bR bL n).map Polygon.coordinates)[i]? =
        some { topLeft := alongSegment tL bL ((i : ℚ) / (n : ℚ))
               topRight := alongSegment tR bR ((i : ℚ) / (n : ℚ))
               bottomRight := alongSegment tR bR (((i : ℚ) + 1) / (n : ℚ))
               bottomLeft := alongSegment tL bL (((i : ℚ) + 1) / (n : ℚ)) }) ∧
    (∃ first last : Coordinates,
      ((initHorizontalSubAreas tL tR bR bL n).map Polygon.coordinates)[0]? = some first ∧
      ((initHorizontalSubAreas tL tR bR bL n).map Polygon.coordinates)[n - 1]? = some last ∧
      first.topLeft = tL ∧ first.bottomLeft = bL ∧ last.topRight = tR ∧
      last.bottomRight = bR) ∧
    (∃ first last : Coordinates,
      ((initVerticalSubAreas tL tR bR bL n).map Polygon.coordinates)[0]? = some first ∧
      ((initVerticalSubAreas tL tR bR bL n).map Polygon.coordinates)[n - 1]? = some last ∧
      first.topLeft = tL ∧ first.topRight = tR ∧ last.bottomLeft = bL ∧
      last.bottomRight = bR) ∧
    (∀ i : ℕ, i + 1 < n → ∃ q r : Coordinates,
      ((initHorizontalSubAreas tL tR bR bL n).map Polygon.coordinates)[i]? = some q ∧
      ((initHorizontalSubAreas tL tR bR bL n).map Polygon.coordinates)[i + 1]? = some r ∧
      q.topRight = r.topLeft ∧ q.bottomRight = r.bottomLeft) ∧
    (∀ i : ℕ, i + 1 < n → ∃ q r : Coordinates,
      ((initVerticalSubAreas tL tR bR bL n).map Polygon.coordinates)[i]? = some q ∧
      ((initVerticalSubAreas tL tR bR bL n).map Polygon.coordinates)[i + 1]? = some r ∧
      q.bottomLeft = r.topLeft ∧ q.bottomRight = r.topRight) := by
  have h0 : 0 < n := hn
  have hl : n - 1 < n := by omega
  refine ⟨⟨by simp [initHorizontalSubAreas], by simp [initVerticalSubAreas]⟩, ?_, ?_, ?_, ?_, ?_⟩
  · intro i hi
    exact ⟨horizontalSubArea_corners tL tR bR bL n i hi,
      verticalSubArea_corners tL tR bR bL n i hi⟩
  · refine ⟨_, _, horizontalSubArea_corners tL tR bR bL n 0 h0,
      horizontalSubArea_corners tL tR bR bL n (n - 1) hl, ?_, ?_, ?_, ?_⟩
    · simpa using alongSegment_zero tL tR n
    · simpa using alongSegment_zero bL bR n
    · exact alongSegment_last tL tR n hn
    · exact alongSegment_last bL bR n hn
  · refine ⟨_, _, verticalSubArea_corners tL tR bR bL n 0 h0,
      verticalSubArea_corners tL tR bR bL n (n - 1) hl, ?_, ?_, ?_, ?_⟩
    · simpa using alongSegment_zero tL bL n
    · simpa using alongSegment_zero tR bR n
    · exact alongSegment_last tL bL n hn
    · exact alongSegment_last tR bR n hn
  · intro i hi
    refine ⟨_, _, horizontalSubArea_corners tL tR bR bL n i (by omega),
      horizontalSubArea_corners tL tR bR bL n (i + 1) hi, ?_, ?_⟩ <;> simp
  · intro i hi
    refine ⟨_, _, verticalSubArea_corners tL tR bR bL n i (by omega),
      verticalSubArea_corners tL tR bR bL n (i + 1) hi, ?_, ?_⟩ <;> simp

/-- C19 for the band (0,0), (90,0), (90,30), (0,30) cut in n = 3: sub-quad 1 of the
horizontal cut is (30,0), (60,0), (60,30), (30,30). -/
theorem C19_sub_quads_chain_witness :
    ((initHorizontalSubAreas ⟨0, 0⟩ ⟨90, 0⟩ ⟨90, 30⟩ ⟨0, 30⟩ 3).map Polygon.coordinates)[1]? =
      some { topLeft := ⟨30, 0⟩, topRight := ⟨60, 0⟩, bottomRight := ⟨60, 30⟩,
             bottomLeft := ⟨30, 30⟩ } := by
  have h := ((C19_sub_quads_chain ⟨0, 0⟩ ⟨90, 0⟩ ⟨90, 30⟩ ⟨0, 30⟩ 3 (by norm_num)).2.1 1
    (by norm_num)).1
  rw [h]
  simp only [alongSegment]
  norm_num

/-! ## C20: the rebuild keeps nothing of the earlier geometry -/

/-- C20: on `new Grid(v, h)`, setting the coordinates c1 and then c2 leaves the same grid,
and so the same `getRegions()` (main region and the four band lists), as setting c2 alone
on a fresh grid with the same counts. -/
theorem C20_rebuild_history_independent (v h : ℕ) (c1 c2 : Coordinates) :
    ∃ g0 g1 g2 g : Grid, Grid.create v h = some g0 ∧ g0.setCoordinates c1 = some g1 ∧
      g1.setCoordinates c2 = some g2 ∧ g0.setCoordinates c2 = some g ∧
      g2.getRegions = g.getRegions ∧ g2 = g := by
  obtain ⟨g0, hg0, _, _, st, hst⟩ := create_isSome v h
  have h1 := setCoordinates_eq_builtGrid g0 st c1 hst
  have h2 := setCoordinates_eq_builtGrid
    (builtGrid g0.verticalSubdivisions g0.horizontalSubdivisions c1)
    (PointInsideStrategy.fresh.prepareStrategy c1) c2 rfl
  have h3 := setCoordinates_eq_builtGrid g0 st c2 hst
  exact ⟨g0, _, _, _, hg0, h1, h2, h3, rfl, rfl⟩

/-! ## C21: the bands of a rectangle inside its main region -/

/-- The rows of the region of an axis-aligned rectangle inside the canvas. -/
theorem mem_getRegion_rectangle (s : PointInsideStrategy) (x0 y0 x1 y1 : ℚ) (hx0 : 0 ≤ x0)
    (hx : x0 < x1) (hx1 : x1 ≤ 640) (hy0 : 0 ≤ y0) (hy : y0 < y1) (hy1 : y1 < 480) (row : Row) :
    row ∈ (s.prepareStrategy (rectangle x0 y0 x1 y1)).getRegion ↔
      (y0 ≤ (row.y : ℚ) ∧ (row.y : ℚ) ≤ y1) ∧ row.min = x0 ∧ row.max = x1 := by
  rw [mem_getRegion]
  constructor
  · rintro ⟨hb, hne⟩
    by_cases hlt : row.y < 480
    · rw [getElem?_boundaries_prepareStrategy _ _ _ hlt,
        tableRow_rectangle x0 y0 x1 y1 hx0 hx hx1 hy0 hy hy1] at hb
      by_cases hrow : y0 ≤ (row.y : ℚ) ∧ (row.y : ℚ) ≤ y1
      · rw [if_pos hrow] at hb
        simp only [Option.some.injEq, Boundaries.mk.injEq] at hb
        exact ⟨hrow, hb.1.symm, hb.2.symm⟩
      · rw [if_neg hrow] at hb
        simp only [uncovered, Option.some.injEq, Boundaries.mk.injEq] at hb
        rcases hne with h | h
        · exact absurd hb.1.symm h
        · exact absurd hb.2.symm h
    · rw [getElem?_boundaries_prepareStrategy_of_le _ _ _ (not_lt.mp hlt)] at hb
      simp at hb
  · rintro ⟨hrow, hmin, hmax⟩
    have hlt : row.y < 480 := by
      have : (row.y : ℚ) < 480 := lt_of_le_of_lt hrow.2 hy1
      exact_mod_cast this
    refine ⟨?_, Or.inr ?_⟩
    · rw [getElem?_boundaries_prepareStrategy _ _ _ hlt,
        tableRow_rectangle x0 y0 x1 y1 hx0 hx hx1 hy0 hy hy1, if_pos hrow, hmin, hmax]
    · rw [hmax]
      linarith

/-- The region of a rectangle lying inside another one has each of its rows inside a row of
the outer region. -/
theorem region_rectangle_inside (x0 y0 x1 y1 a0 b0 a1 b1 : ℚ) (hx0 : 0 ≤ x0) (hx : x0 < x1)
    (hx1 : x1 ≤ 640) (hy0 : 0 ≤ y0) (hy : y0 < y1) (hy1 : y1 < 480)
    (ha0 : x0 ≤ a0) (ha : a0 < a1) (ha1 : a1 ≤ x1) (hb0 : y0 ≤ b0) (hb : b0 < b1)
    (hb1 : b1 ≤ y1) (row : Row)
    (hrow : row ∈ (PointInsideStrategy.fresh.prepareStrategy (rectangle a0 b0 a1 b1)).getRegion) :
    ∃ outer ∈ (PointInsideStrategy.fresh.prepareStrategy (rectangle x0 y0 x1 y1)).getRegion,
      outer.y = row.y ∧ outer.min ≤ row.min ∧ row.max ≤ outer.max := by
  rw [mem_getRegion_rectangle _ a0 b0 a1 b1 (by linarith) ha (by linarith) (by linarith) hb
    (by linarith)] at hrow
  obtain ⟨⟨h1, h2⟩, hmin, hmax⟩ := hrow
  refine ⟨{ min := x0, max := x1, y := row.y }, ?_, rfl, ?_, ?_⟩
  · rw [mem_getRegion_rectangle _ x0 y0 x1 y1 hx0 hx hx1 hy0 hy hy1]
    exact ⟨⟨by linarith, by linarith⟩, rfl, rfl⟩
  · show x0 ≤ row.min
    rw [hmin]
    exact ha0
  · show row.max ≤ x1
    rw [hmax]
    exact ha1

theorem initVerticalSubAreas_rectangle (xa xb y0 y1 : ℚ) (n : ℕ) :
    initVerticalSubAreas ⟨xa, y0⟩ ⟨xb, y0⟩ ⟨xb, y1⟩ ⟨xa, y1⟩ n =
      (List.range n).map (fun (i : ℕ) =>
        subPolygon (rectangle xa (y0 + (y1 - y0) / (n : ℚ) * (i : ℚ)) xb
          (y0 + (y1 - y0) / (n : ℚ) * ((i : ℚ) + 1)))) := by
  simp only [initVerticalSubAreas, rectangle, sub_self, zero_div, zero_mul, add_zero]

theorem initHorizontalSubAreas_rectangle (x0 x1 ya yb : ℚ) (n : ℕ) :
    initHorizontalSubAreas ⟨x0, ya⟩ ⟨x1, ya⟩ ⟨x1, yb⟩ ⟨x0, yb⟩ n =
      (List.range n).map (fun (i : ℕ) =>
        subPolygon (rectangle (x0 + (x1 - x0) / (n : ℚ) * (i : ℚ)) ya
          (x0 + (x1 - x0) / (n : ℚ) * ((i : ℚ) + 1)) yb)) := by
  simp only [initHorizontalSubAreas, rectangle, sub_self, zero_div, zero_mul, add_zero]

/-- The cut points of a segment of positive length: for i < n the fractions i/n and (i+1)/n
stay in order inside the segment. -/
theorem cut_points (u w : ℚ) (huw : u < w) (n i : ℕ) (hi : i < n) :
    u ≤ u + (w - u) / (n : ℚ) * (i : ℚ) ∧
      u + (w - u) / (n : ℚ) * (i : ℚ) < u + (w - u) / (n : ℚ) * ((i : ℚ) + 1) ∧
      u + (w - u) / (n : ℚ) * ((i : ℚ) + 1) ≤ w := by
  have hn : (0 : ℚ) < (n : ℚ) := by
    have : 0 < n := by omega
    exact_mod_cast this
  have hd : 0 < (w - u) / (n : ℚ) := div_pos (sub_pos.mpr huw) hn
  have hi0 : (0 : ℚ) ≤ (i : ℚ) := Nat.cast_nonneg i
  have hi1 : (i : ℚ) + 1 ≤ (n : ℚ) := by
    have : i + 1 ≤ n := hi
    exact_mod_cast this
  have hfull : (w - u) / (n : ℚ) * (n : ℚ) = w - u := by
    field_simp
  refine ⟨?_, ?_, ?_⟩
  · have := mul_nonneg hd.le hi0
    linarith
  · have : (w - u) / (n : ℚ) * (i : ℚ) < (w - u) / (n : ℚ) * ((i : ℚ) + 1) :=
      mul_lt_mul_of_pos_left (by linarith) hd
    linarith
  · have : (w - u) / (n : ℚ) * ((i : ℚ) + 1) ≤ (w - u) / (n : ℚ) * (n : ℚ) :=
      mul_le_mul_of_nonneg_left hi1 hd.le
    linarith

theorem centerOf_rectangle_sides (x0 y0 x1 y1 : ℚ) :
    centerOf (buildFunctionParameters ⟨x0, y0⟩ ⟨x1, y0⟩) = ⟨(x0 + x1) / 2, y0⟩ ∧
      centerOf (buildFunctionParameters ⟨x0, y1⟩ ⟨x1, y1⟩) = ⟨(x0 + x1) / 2, y1⟩ ∧
      centerOf (buildFunctionParameters ⟨x0, y0⟩ ⟨x0, y1⟩) = ⟨x0, (y0 + y1) / 2⟩ ∧
      centerOf (buildFunctionParameters ⟨x1, y0⟩ ⟨x1, y1⟩) = ⟨x1, (y0 + y1) / 2⟩ := by
  simp only [centerOf_eq_midpoint, midpoint, Point.mk.injEq]
  refine ⟨⟨trivial, ?_⟩, ⟨trivial, ?_⟩, ⟨?_, trivial⟩, ⟨?_, trivial⟩⟩ <;> ring

/-- The four band lists of the grid built on an axis-aligned rectangle: every sub-quad is
again an axis-aligned rectangle. -/
theorem builtGrid_rectangle (v h : ℕ) (x0 y0 x1 y1 : ℚ) :
    (builtGrid v h (rectangle x0 y0 x1 y1)).topPolygons =
        (List.range h).map (fun (i : ℕ) =>
          subPolygon (rectangle (x0 + (x1 - x0) / (h : ℚ) * (i : ℚ)) y0
            (x0 + (x1 - x0) / (h : ℚ) * ((i : ℚ) + 1)) ((y0 + y1) / 2))) ∧
      (builtGrid v h (rectangle x0 y0 x1 y1)).bottomPolygons =
        (List.range h).map (fun (i : ℕ) =>
          subPolygon (rectangle (x0 + (x1 - x0) / (h : ℚ) * (i : ℚ)) ((y0 + y1) / 2)
            (x0 + (x1 - x0) / (h : ℚ) * ((i : ℚ) + 1)) y1)) ∧
      (builtGrid v h (rectangle x0 y0 x1 y1)).leftPolygons =
        (List.range v).map (fun (i : ℕ) =>
          subPolygon (rectangle x0 (y0 + (y1 - y0) / (v : ℚ) * (i : ℚ)) ((x0 + x1) / 2)
            (y0 + (y1 - y0) / (v : ℚ) * ((i : ℚ) + 1)))) ∧
      (builtGrid v h (rectangle x0 y0 x1 y1)).rightPolygons =
        (List.range v).map (fun (i : ℕ) =>
          subPolygon (rectangle ((x0 + x1) / 2) (y0 + (y1 - y0) / (v : ℚ) * (i : ℚ)) x1
            (y0 + (y1 - y0) / (v : ℚ) * ((i : ℚ) + 1)))) := by
  obtain ⟨c1, c2, c3, c4⟩ := centerOf_rectangle_sides x0 y0 x1 y1
  have hc : (rectangle x0 y0 x1 y1).topLeft = ⟨x0, y0⟩ ∧
      (rectangle x0 y0 x1 y1).topRight = ⟨x1, y0⟩ ∧
      (rectangle x0 y0 x1 y1).bottomRight = ⟨x1, y1⟩ ∧
      (rectangle x0 y0 x1 y1).bottomLeft = ⟨x0, y1⟩ := ⟨rfl, rfl, rfl, rfl⟩
  simp only [builtGrid, hc, c1, c2, c3, c4]
  exact ⟨initHorizontalSubAreas_rectangle x0 x1 y0 ((y0 + y1) / 2) h,
    initHorizontalSubAreas_rectangle x0 x1 ((y0 + y1) / 2) y1 h,
    initVerticalSubAreas_rectangle x0 ((x0 + x1) / 2) y0 y1 v,
    initVerticalSubAreas_rectangle ((x0 + x1) / 2) x1 y0 y1 v⟩

theorem getRegion_mk (c : Coordinates) (s : PointInsideStrategy) :
    Polygon.getRegion { coordinates := c, isPointInsideStrategy := some s } = s.getRegion :=
  rfl

theorem getRegions_builtGrid (v h : ℕ) (c : Coordinates) :
    (builtGrid v h c).getRegions.main = (PointInsideStrategy.fresh.prepareStrategy c).getRegion ∧
      (builtGrid v h c).getRegions.top =
        (builtGrid v h c).topPolygons.map Polygon.getRegion ∧
      (builtGrid v h c).getRegions.bottom =
        (builtGrid v h c).bottomPolygons.map Polygon.getRegion ∧
      (builtGrid v h c).getRegions.left =
        (builtGrid v h c).leftPolygons.map Polygon.getRegion ∧
      (builtGrid v h c).getRegions.right =
        (builtGrid v h c).rightPolygons.map Polygon.getRegion := by
  refine ⟨?_, rfl, rfl, rfl, rfl⟩
  simp only [Grid.getRegions, builtGrid]
  exact getRegion_mk c _

/-! ## Rounded arithmetic: the grid -/

/-- The four band lists that `#initSubAreas` derives in rounded arithmetic. -/
theorem initSubAreasRounded_eq (rnd : ℚ → ℚ) (g : Grid) (st : PointInsideStrategy)
    (c : Coordinates) (v h : ℕ) (hst : g.areaPolygon.isPointInsideStrategy = some st)
    (hparams : st.params = buildAllFunctionParametersRounded rnd c) :
    g.initSubAreasRounded rnd v h = some { g with
      topPolygons := initHorizontalSubAreasRounded rnd g.areaPolygon.coordinates.topLeft
        g.areaPolygon.coordinates.topRight
        (centerOfRounded rnd (buildFunctionParametersRounded rnd c.topRight c.bottomRight))
        (centerOfRounded rnd (buildFunctionParametersRounded rnd c.topLeft c.bottomLeft)) h
      bottomPolygons := initHorizontalSubAreasRounded rnd
        (centerOfRounded rnd (buildFunctionParametersRounded rnd c.topLeft c.bottomLeft))
        (centerOfRounded rnd (buildFunctionParametersRounded rnd c.topRight c.bottomRight))
        g.areaPolygon.coordinates.bottomRight g.areaPolygon.coordinates.bottomLeft h
      leftPolygons := initVerticalSubAreasRounded rnd g.areaPolygon.coordinates.topLeft
        (centerOfRounded rnd (buildFunctionParametersRounded rnd c.topLeft c.topRight))
        (centerOfRounded rnd (buildFunctionParametersRounded rnd c.bottomLeft c.bottomRight))
        g.areaPolygon.coordinates.bottomLeft v
      rightPolygons := initVerticalSubAreasRounded rnd
        (centerOfRounded rnd (buildFunctionParametersRounded rnd c.topLeft c.topRight))
        g.areaPolygon.coordinates.topRight g.areaPolygon.coordinates.bottomRight
        (centerOfRounded rnd (buildFunctionParametersRounded rnd c.bottomLeft c.bottomRight))
        v } := by
  unfold Grid.initSubAreasRounded
  rw [hst]
  simp only [hparams, buildAllFunctionParametersRounded, calculateCenterCoordinatesRounded]
  rfl

theorem createRounded_isSome (rnd : ℚ → ℚ) (v h : ℕ) :
    ∃ g : Grid, Grid.createRounded rnd v h = some g ∧
      g.verticalSubdivisions = v ∧ g.horizontalSubdivisions = h ∧
      ∃ st, g.areaPolygon.isPointInsideStrategy = some st := by
  unfold Grid.createRounded
  rw [initSubAreasRounded_eq rnd _
    (PointInsideStrategy.fresh.prepareStrategyRounded rnd Polygon.fresh.coordinates)
    Polygon.fresh.coordinates v h rfl (params_prepareStrategyRounded _ _ _)]
  exact ⟨_, rfl, rfl, rfl, _, rfl⟩

/-- Setting coordinates in rounded arithmetic on a grid whose main polygon has a strategy:
the top band and the main polygon of the result. -/
theorem setCoordinatesRounded_eq (rnd : ℚ → ℚ) (g : Grid) (st : PointInsideStrategy)
    (c : Coordinates) (hst : g.areaPolygon.isPointInsideStrategy = some st) :
    ∃ g1 : Grid, g.setCoordinatesRounded rnd c = some g1 ∧
      g1.topPolygons = initHorizontalSubAreasRounded rnd c.topLeft c.topRight
        (centerOfRounded rnd (buildFunctionParametersRounded rnd c.topRight c.bottomRight))
        (centerOfRounded rnd (buildFunctionParametersRounded rnd c.topLeft c.bottomLeft))
        g.horizontalSubdivisions ∧
      g1.areaPolygon =
        { coordinates := c
          isPointInsideStrategy := some (PointInsideStrategy.fresh.prepareStrategyRounded rnd c) } := by
  unfold Grid.setCoordinatesRounded
  rw [initSubAreasRounded_eq rnd _ (st.prepareStrategyRounded rnd c) c _ _
    (by simp [Polygon.setCoordinatesRounded, hst]) (params_prepareStrategyRounded _ _ _)]
  refine ⟨_, rfl, ?_, ?_⟩
  · simp [Polygon.setCoordinatesRounded]
  · simp only [Polygon.setCoordinatesRounded, hst, Option.map_some']
    rw [prepareStrategyRounded_eq rnd st c, ← prepareStrategyRounded_eq rnd PointInsideStrategy.fresh c]

theorem getRegion_subPolygonRounded (rnd : ℚ → ℚ) (c : Coordinates) :
    (subPolygonRounded rnd c).getRegion =
      (PointInsideStrategy.fresh.prepareStrategyRounded rnd c).getRegion := by
  rfl

/-- On doubles the seventh top sub-quad of the rectangle (0,0), (29,0), (29,10), (0,10). -/
theorem horizontalSubAreaRounded_last :
    horizontalSubAreaRounded roundDouble ⟨0, 0⟩ ⟨29, 0⟩
      (centerOfRounded roundDouble (buildFunctionParametersRounded roundDouble ⟨29, 0⟩ ⟨29, 10⟩))
      (centerOfRounded roundDouble (buildFunctionParametersRounded roundDouble ⟨0, 0⟩ ⟨0, 10⟩))
      7 6 = lastTopSubQuad := by
  decide!

theorem tableRowRounded_lastTopSubQuad_0 :
    tableRowRounded roundDouble lastTopSubQuad 0 =
      { min := 874582963350967 / 35184372088832, max := 8162774324609025 / 281474976710656 } := by
  decide!

theorem tableRowRounded_rectangle_29_10_row_0 :
    tableRowRounded roundDouble (rectangle 0 0 29 10) 0 = { min := 0, max := 29 } := by
  decide!

/-- With the identity as rounding the rounded grid operations are the exact ones. -/
theorem centerOfRounded_id (params : FunctionParameters) :
    centerOfRounded id params = centerOf params := rfl

theorem subPolygonRounded_id (c : Coordinates) : subPolygonRounded id c = subPolygon c := by
  simp only [subPolygonRounded, subPolygon, Polygon.setCoordinatesRounded,
    Polygon.setCoordinates, Polygon.setStrategyRounded, Polygon.setStrategy,
    prepareStrategyRounded_id]

theorem initHorizontalSubAreasRounded_id (tL tR bR bL : Point) (count : ℕ) :
    initHorizontalSubAreasRounded id tL tR bR bL count =
      initHorizontalSubAreas tL tR bR bL count := by
  simp only [initHorizontalSubAreasRounded, initHorizontalSubAreas, subPolygonRounded_id,
    horizontalSubAreaRounded, interpolateRounded, id]

theorem initVerticalSubAreasRounded_id (tL tR bR bL : Point) (count : ℕ) :
    initVerticalSubAreasRounded id tL tR bR bL count =
      initVerticalSubAreas tL tR bR bL count := by
  simp only [initVerticalSubAreasRounded, initVerticalSubAreas, subPolygonRounded_id,
    verticalSubAreaRounded, interpolateRounded, id]

theorem initSubAreasRounded_id (g : Grid) (v h : ℕ) :
    g.initSubAreasRounded id v h = g.initSubAreas v h := by
  simp only [Grid.initSubAreasRounded, Grid.initSubAreas, calculateCenterCoordinatesRounded,
    calculateCenterCoordinates, centerOfRounded_id, initHorizontalSubAreasRounded_id,
    initVerticalSubAreasRounded_id]

/-- With the identity as rounding, `new Grid(v, h)` and the setter of the coordinates in
rounded arithmetic are the exact ones. -/
theorem grid_rounded_id (v h : ℕ) (g : Grid) (c : Coordinates) :
    Grid.createRounded id v h = Grid.create v h ∧
      g.setCoordinatesRounded id c = g.setCoordinates c := by
  constructor
  · simp only [Grid.createRounded, Grid.create, initSubAreasRounded_id,
      Polygon.setStrategyRounded, Polygon.setStrategy, prepareStrategyRounded_id]
  · have hp : g.areaPolygon.setCoordinatesRounded id c = g.areaPolygon.setCoordinates c := by
      simp only [Polygon.setCoordinatesRounded, Polygon.setCoordinates,
        prepareStrategyRounded_id]
    simp only [Grid.setCoordinatesRounded, Grid.setCoordinates, initSubAreasRounded_id, hp]

/-- C21 as stated fails on doubles: in `new Grid(0, 7)` on the rectangle (0,0), (29,0),
(29,10), (0,10) the last top sub-quad has its right edge at
0 + ((29 - 0) / 7) * 7 = 29.000000000000004, so that row 0 of its region is
`{min: 24.85714285714286, max: 29.000000000000004}`, and no row of the main region, whose
row 0 is `{min: 0, max: 29}`, contains that span. -/
theorem C21_counterexample :
    ∃ g0 g : Grid, Grid.createRounded roundDouble 0 7 = some g0 ∧
      g0.setCoordinatesRounded roundDouble (rectangle 0 0 29 10) = some g ∧
      ∃ region ∈ g.getRegions.top, ∃ row ∈ region,
        row = { min := 874582963350967 / 35184372088832,
                max := 8162774324609025 / 281474976710656, y := 0 } ∧
        ¬ ∃ outer ∈ g.getRegions.main,
            outer.y = row.y ∧ outer.min ≤ row.min ∧ row.max ≤ outer.max := by
  obtain ⟨g0, hg0, _, hh, st, hst⟩ := createRounded_isSome roundDouble 0 7
  obtain ⟨g, hg, htop, hmain⟩ :=
    setCoordinatesRounded_eq roundDouble g0 st (rectangle 0 0 29 10) hst
  rw [hh] at htop
  refine ⟨g0, g, hg0, hg,
    (PointInsideStrategy.fresh.prepareStrategyRounded roundDouble lastTopSubQuad).getRegion, ?_,
    { min := 874582963350967 / 35184372088832, max := 8162774324609025 / 281474976710656,
      y := 0 }, ?_, rfl, ?_⟩
  · have htop2 : g.getRegions.top = g.topPolygons.map Polygon.getRegion := rfl
    rw [htop2, htop, List.mem_map]
    refine ⟨subPolygonRounded roundDouble lastTopSubQuad, ?_, getRegion_subPolygonRounded _ _⟩
    unfold initHorizontalSubAreasRounded
    rw [List.mem_map]
    refine ⟨6, by simp, ?_⟩
    have hc : (rectangle 0 0 29 10).topLeft = ⟨0, 0⟩ ∧
        (rectangle 0 0 29 10).topRight = ⟨29, 0⟩ ∧
        (rectangle 0 0 29 10).bottomRight = ⟨29, 10⟩ ∧
        (rectangle 0 0 29 10).bottomLeft = ⟨0, 10⟩ := ⟨rfl, rfl, rfl, rfl⟩
    rw [hc.1, hc.2.1, hc.2.2.1, hc.2.2.2, horizontalSubAreaRounded_last]
  · rw [mem_getRegion]
    refine ⟨?_, Or.inl (by norm_num)⟩
    rw [getElem?_boundaries_prepareStrategyRounded _ _ _ 0 (by norm_num),
      tableRowRounded_lastTopSubQuad_0]
  · rintro ⟨outer, hmem, hy, _, hmax⟩
    have hmain2 : g.getRegions.main = g.areaPolygon.getRegion := rfl
    rw [hmain2, hmain, getRegion_mk, mem_getRegion] at hmem
    have hy0 : outer.y = 0 := hy
    rw [hy0, getElem?_boundaries_prepareStrategyRounded _ _ _ 0 (by norm_num),
      tableRowRounded_rectangle_29_10_row_0] at hmem
    have h29 : outer.max = 29 := by
      have := hmem.1
      simp only [Option.some.injEq, Boundaries.mk.injEq] at this
      exact this.2.symm
    rw [h29] at hmax
    norm_num at hmax

/-- C21, amended: in exact arithmetic, for an axis-aligned rectangle main quad inside the
canvas (0 <= x0 < x1 <= 640, 0 <= y0 < y1 < 480) and any counts rowBands, columnBands >= 0,
every row `{y, min, max}` of the region of any top, bottom, left or right sub-quad has a row
with the same y in the main region whose span contains [min, max]. -/
theorem C21_bands_inside_main (x0 y0 x1 y1 : ℚ) (hx0 : 0 ≤ x0) (hx : x0 < x1)
    (hx1 : x1 ≤ 640) (hy0 : 0 ≤ y0) (hy : y0 < y1) (hy1 : y1 < 480)
    (rowBands columnBands : ℕ) :
    ∃ g0 g : Grid, Grid.create rowBands columnBands = some g0 ∧
      g0.setCoordinates (rectangle x0 y0 x1 y1) = some g ∧
      ∀ region ∈ g.getRegions.top ++ g.getRegions.bottom ++ g.getRegions.left ++
          g.getRegions.right,
        ∀ row ∈ region, ∃ outer ∈ g.getRegions.main,
          outer.y = row.y ∧ outer.min ≤ row.min ∧ row.max ≤ outer.max := by
  obtain ⟨g0, hg0, hv, hh, st, hst⟩ := create_isSome rowBands columnBands
  have hset := setCoordinates_eq_builtGrid g0 st (rectangle x0 y0 x1 y1) hst
  rw [hv, hh] at hset
  refine ⟨g0, _, hg0, hset, ?_⟩
  obtain ⟨htop, hbottom, hleft, hright⟩ :=
    builtGrid_rectangle rowBands columnBands x0 y0 x1 y1
  obtain ⟨hmain, hrtop, hrbottom, hrleft, hrright⟩ :=
    getRegions_builtGrid rowBands columnBands (rectangle x0 y0 x1 y1)
  have hsub : ∀ (polygons : List Polygon) (n : ℕ) (f : ℕ → Coordinates),
      polygons = (List.range n).map (fun (i : ℕ) => subPolygon (f i)) →
      ∀ region ∈ polygons.map Polygon.getRegion, ∃ i : ℕ, i < n ∧
        region = (PointInsideStrategy.fresh.prepareStrategy (f i)).getRegion := by
    intro polygons n f hp region hregion
    obtain ⟨p, hmem, hpr⟩ := List.mem_map.mp hregion
    rw [hp] at hmem
    obtain ⟨i, hi, hpi⟩ := List.mem_map.mp hmem
    refine ⟨i, List.mem_range.mp hi, ?_⟩
    rw [← hpr, ← hpi, getRegion_subPolygon]
  intro region hregion row hrow
  rw [hmain]
  rw [hrtop, hrbottom, hrleft, hrright] at hregion
  rcases List.mem_append.mp hregion with hregion | hregion
  · rcases List.mem_append.mp hregion with hregion | hregion
    · rcases List.mem_append.mp hregion with hregion | hregion
      · obtain ⟨i, hi, hr⟩ := hsub _ columnBands (fun (i : ℕ) =>
          rectangle (x0 + (x1 - x0) / (columnBands : ℚ) * (i : ℚ)) y0
            (x0 + (x1 - x0) / (columnBands : ℚ) * ((i : ℚ) + 1)) ((y0 + y1) / 2))
          htop region hregion
        rw [hr] at hrow
        obtain ⟨h1, h2, h3⟩ := cut_points x0 x1 hx columnBands i hi
        exact region_rectangle_inside x0 y0 x1 y1 _ _ _ _ hx0 hx hx1 hy0 hy hy1 h1 h2 h3
          (le_refl _) (by linarith) (by linarith) row hrow
      · obtain ⟨i, hi, hr⟩ := hsub _ columnBands (fun (i : ℕ) =>
          rectangle (x0 + (x1 - x0) / (columnBands : ℚ) * (i : ℚ)) ((y0 + y1) / 2)
            (x0 + (x1 - x0) / (columnBands : ℚ) * ((i : ℚ) + 1)) y1)
          hbottom region hregion
        rw [hr] at hrow
        obtain ⟨h1, h2, h3⟩ := cut_points x0 x1 hx columnBands i hi
        exact region_rectangle_inside x0 y0 x1 y1 _ _ _ _ hx0 hx hx1 hy0 hy hy1 h1 h2 h3
          (by linarith) (by linarith) (le_refl _) row hrow
    · obtain ⟨i, hi, hr⟩ := hsub _ rowBands (fun (i : ℕ) =>
        rectangle x0 (y0 + (y1 - y0) / (rowBands : ℚ) * (i : ℚ)) ((x0 + x1) / 2)
          (y0 + (y1 - y0) / (rowBands : ℚ) * ((i : ℚ) + 1)))
        hleft region hregion
      rw [hr] at hrow
      obtain ⟨h1, h2, h3⟩ := cut_points y0 y1 hy rowBands i hi
      exact region_rectangle_inside x0 y0 x1 y1 _ _ _ _ hx0 hx hx1 hy0 hy hy1 (le_refl _)
        (by linarith) (by linarith) h1 h2 h3 row hrow
  · obtain ⟨i, hi, hr⟩ := hsub _ rowBands (fun (i : ℕ) =>
      rectangle ((x0 + x1) / 2) (y0 + (y1 - y0) / (rowBands : ℚ) * (i : ℚ)) x1
        (y0 + (y1 - y0) / (rowBands : ℚ) * ((i : ℚ) + 1)))
      hright region hregion
    rw [hr] at hrow
    obtain ⟨h1, h2, h3⟩ := cut_points y0 y1 hy rowBands i hi
    exact region_rectangle_inside x0 y0 x1 y1 _ _ _ _ hx0 hx hx1 hy0 hy hy1 (by linarith)
      (by linarith) (le_refl _) h1 h2 h3 row hrow

/-- C21 in exact arithmetic at the square (50,50), (300,50), (300,300), (50,300) with
rowBands = 2 and columnBands = 3. -/
theorem C21_bands_inside_main_witness :
    ∃ g0 g : Grid, Grid.create 2 3 = some g0 ∧
      g0.setCoordinates (rectangle 50 50 300 300) = some g ∧
      ∀ region ∈ g.getRegions.top ++ g.getRegions.bottom ++ g.getRegions.left ++
          g.getRegions.right,
        ∀ row ∈ region, ∃ outer ∈ g.getRegions.main,
          outer.y = row.y ∧ outer.min ≤ row.min ∧ row.max ≤ outer.max :=
  C21_bands_inside_main 50 50 300 300 (by norm_num) (by norm_num) (by norm_num) (by norm_num)
    (by norm_num) (by norm_num) 2 3

/-! ## C22: the segment function and its candidate -/

/-- The candidate x of a non-vertical, non-horizontal segment whose ends are not both above
or both below the row lies between the x-values of the two ends. -/
theorem candidate_between (a b : Point) (y : ℚ) (hx : a.x - b.x ≠ 0)
    (hs : (a.y - b.y) / (a.x - b.x) ≠ 0)
    (h1 : ¬ (a.y < y ∧ b.y < y)) (h2 : ¬ (a.y > y ∧ b.y > y)) :
    Min.min a.x b.x ≤ (y - (a.y - (a.y - b.y) / (a.x - b.x) * a.x)) / ((a.y - b.y) / (a.x - b.x)) ∧
      (y - (a.y - (a.y - b.y) / (a.x - b.x) * a.x)) / ((a.y - b.y) / (a.x - b.x)) ≤
        Max.max a.x b.x := by
  have he : a.y - b.y ≠ 0 := by
    intro h
    apply hs
    rw [h, zero_div]
  set r := (y - (a.y - (a.y - b.y) / (a.x - b.x) * a.x)) / ((a.y - b.y) / (a.x - b.x)) with hr
  have ha : r - a.x = (y - a.y) * ((a.x - b.x) / (a.y - b.y)) := by
    rw [hr]
    field_simp
    ring
  have hb : r - b.x = (y - b.y) * ((a.x - b.x) / (a.y - b.y)) := by
    rw [hr]
    field_simp
    ring
  have hy : (y - a.y) * (y - b.y) ≤ 0 := by
    rcases le_total a.y y with h3 | h3 <;> rcases le_total b.y y with h4 | h4
    · rcases eq_or_lt_of_le h3 with h5 | h5
      · rw [h5]; simp
      · rcases eq_or_lt_of_le h4 with h6 | h6
        · rw [h6]; simp
        · exact absurd ⟨h5, h6⟩ h1
    · exact mul_nonpos_of_nonneg_of_nonpos (sub_nonneg.mpr h3) (sub_nonpos.mpr h4)
    · exact mul_nonpos_of_nonpos_of_nonneg (sub_nonpos.mpr h3) (sub_nonneg.mpr h4)
    · rcases eq_or_lt_of_le h3 with h5 | h5
      · rw [h5]; simp
      · rcases eq_or_lt_of_le h4 with h6 | h6
        · rw [h6]; simp
        · exact absurd ⟨h5, h6⟩ h2
  have hprod : (r - a.x) * (r - b.x) ≤ 0 := by
    rw [ha, hb]
    have : (y - a.y) * ((a.x - b.x) / (a.y - b.y)) * ((y - b.y) * ((a.x - b.x) / (a.y - b.y)))
        = ((y - a.y) * (y - b.y)) * ((a.x - b.x) / (a.y - b.y)) ^ 2 := by ring
    rw [this]
    exact mul_nonpos_of_nonpos_of_nonneg hy (sq_nonneg _)
  constructor
  · by_contra hcon
    rw [not_le, lt_min_iff] at hcon
    have : 0 < (r - a.x) * (r - b.x) :=
      mul_pos_of_neg_of_neg (sub_neg.mpr hcon.1) (sub_neg.mpr hcon.2)
    linarith
  · by_contra hcon
    rw [not_le, max_lt_iff] at hcon
    have : 0 < (r - a.x) * (r - b.x) := mul_pos (sub_pos.mpr hcon.1) (sub_pos.mpr hcon.2)
    linarith

/-- C22 as stated fails on doubles: for the corners (16,6), (32,31), (37,41), (1,46), all
inside the canvas, the left segment from (16,6) to (1,46) passes the straddle test at
row 46 with the rounded slope -2.6666666666666665 and base 48.666666666666664; its
candidate (46 - base) / slope is 0.9999999999999991, below the stored `#minX` = 1, so the
filter rejects it: the scan pushes nothing for this segment and row 46 of the table is the
uncovered value. -/
theorem C22_counterexample :
    (⟨16, 6⟩ : Point) ∈ quadInsideCanvas.toList ∧ (⟨1, 46⟩ : Point) ∈ quadInsideCanvas.toList ∧
      Min.min (6 : ℚ) 46 ≤ 46 ∧ (46 : ℚ) ≤ Max.max 6 46 ∧
      (calculateMinMaxCoordinates PointInsideStrategy.fresh quadInsideCanvas).minX = 1 ∧
      (calculateMinMaxCoordinates PointInsideStrategy.fresh quadInsideCanvas).maxX = 37 ∧
      (buildFunctionParametersRounded roundDouble ⟨16, 6⟩ ⟨1, 46⟩).slope =
        some (-6004799503160661 / 2251799813685248) ∧
      (buildFunctionParametersRounded roundDouble ⟨16, 6⟩ ⟨1, 46⟩).base =
        some (6849224433292629 / 140737488355328) ∧
      roundDouble (roundDouble (46 - 6849224433292629 / 140737488355328) /
        (-6004799503160661 / 2251799813685248)) = 1125899906842623 / 1125899906842624 ∧
      (∀ (rest : List FunctionParameters) (results : List ℚ),
        scanSegmentsRounded roundDouble 1 37 46
            (buildFunctionParametersRounded roundDouble ⟨16, 6⟩ ⟨1, 46⟩ :: rest) results =
          scanSegmentsRounded roundDouble 1 37 46 rest results) ∧
      (PointInsideStrategy.fresh.prepareStrategyRounded roundDouble
        quadInsideCanvas).boundaries[46]? = some uncovered := by
  have hp : buildFunctionParametersRounded roundDouble ⟨16, 6⟩ ⟨1, 46⟩ =
      { isVertical := false, yValue := 0,
        slope := some (-6004799503160661 / 2251799813685248),
        base := some (6849224433292629 / 140737488355328), a := ⟨16, 6⟩, b := ⟨1, 46⟩ } := by
    decide!
  have hcand : roundDouble (roundDouble (46 - 6849224433292629 / 140737488355328) /
      (-6004799503160661 / 2251799813685248)) = 1125899906842623 / 1125899906842624 := by
    decide!
  refine ⟨by simp [Coordinates.toList, quadInsideCanvas],
    by simp [Coordinates.toList, quadInsideCanvas], by norm_num, by norm_num,
    ?_, ?_, ?_, ?_, hcand, ?_, ?_⟩
  · simp only [calculateMinMaxCoordinates, quadInsideCanvas, Coordinates.toList,
      List.foldl_cons, List.foldl_nil]
    norm_num
  · simp only [calculateMinMaxCoordinates, quadInsideCanvas, Coordinates.toList,
      List.foldl_cons, List.foldl_nil]
    norm_num
  · rw [hp]
  · rw [hp]
  · intro rest results
    rw [hp, scanSegmentsRounded]
    simp only [hcand]
    norm_num
  · rw [getElem?_boundaries_prepareStrategyRounded _ _ _ 46 (by norm_num),
      tableRowRounded_quadInsideCanvas_46]

/-- C22, amended: for endpoints a, b with a.x != b.x, in exact arithmetic the segment is
stored with a slope and a base such that slope * a.x + base = a.y and
slope * b.x + base = b.y, for every row y with min(a.y, b.y) <= y <= max(a.y, b.y) and a
slope other than 0 the candidate (y - base) / slope lies between a.x and b.x, and when a
and b are corners of the polygon the scan of such a row pushes that candidate: in exact
arithmetic the [minX, maxX] filter lets it through.  For every rounding of the arithmetic,
doubles included, the scan of such a row pushes the candidate computed from the stored
slope and base exactly when that candidate lies in [minX, maxX], and pushes nothing for the
segment otherwise. -/
theorem C22_edge_function_and_filter (rnd : ℚ → ℚ) (a b : Point) (hx : a.x ≠ b.x) :
    (∃ slope base : ℚ,
      (buildFunctionParameters a b).isVertical = false ∧
      (buildFunctionParameters a b).slope = some slope ∧
      (buildFunctionParameters a b).base = some base ∧
      slope * a.x + base = a.y ∧ slope * b.x + base = b.y ∧
      (∀ y : ℚ, Min.min a.y b.y ≤ y → y ≤ Max.max a.y b.y → slope ≠ 0 →
        Min.min a.x b.x ≤ (y - base) / slope ∧ (y - base) / slope ≤ Max.max a.x b.x) ∧
      (∀ (s : PointInsideStrategy) (c : Coordinates), a ∈ c.toList → b ∈ c.toList →
        ∀ y : ℚ, Min.min a.y b.y ≤ y → y ≤ Max.max a.y b.y → slope ≠ 0 →
        ∀ (rest : List FunctionParameters) (results : List ℚ),
          scanSegments (calculateMinMaxCoordinates s c).minX
              (calculateMinMaxCoordinates s c).maxX y
              (buildFunctionParameters a b :: rest) results =
            scanSegments (calculateMinMaxCoordinates s c).minX
              (calculateMinMaxCoordinates s c).maxX y rest
              (results ++ [(y - base) / slope]))) ∧
    (∀ slope base : ℚ,
      (buildFunctionParametersRounded rnd a b).slope = some slope →
      (buildFunctionParametersRounded rnd a b).base = some base →
      ∀ (minX maxX y : ℚ), Min.min a.y b.y ≤ y → y ≤ Max.max a.y b.y → slope ≠ 0 →
      ∀ (rest : List FunctionParameters) (results : List ℚ),
        scanSegmentsRounded rnd minX maxX y
            (buildFunctionParametersRounded rnd a b :: rest) results =
          if minX ≤ rnd (rnd (y - base) / slope) ∧ rnd (rnd (y - base) / slope) ≤ maxX then
            scanSegmentsRounded rnd minX maxX y rest
              (results ++ [rnd (rnd (y - base) / slope)])
          else scanSegmentsRounded rnd minX maxX y rest results) := by
  have hne : a.x - b.x ≠ 0 := sub_ne_zero.mpr hx
  have hstraddle : ∀ y : ℚ, Min.min a.y b.y ≤ y → y ≤ Max.max a.y b.y →
      ¬ (a.y < y ∧ b.y < y) ∧ ¬ (a.y > y ∧ b.y > y) := by
    intro y h1 h2
    constructor
    · rintro ⟨h3, h4⟩
      exact absurd h2 (not_le.mpr (max_lt h3 h4))
    · rintro ⟨h3, h4⟩
      exact absurd h1 (not_le.mpr (lt_min h3 h4))
  have hbetween : ∀ y : ℚ, Min.min a.y b.y ≤ y → y ≤ Max.max a.y b.y →
      (a.y - b.y) / (a.x - b.x) ≠ 0 →
      Min.min a.x b.x ≤
          (y - (a.y - (a.y - b.y) / (a.x - b.x) * a.x)) / ((a.y - b.y) / (a.x - b.x)) ∧
        (y - (a.y - (a.y - b.y) / (a.x - b.x) * a.x)) / ((a.y - b.y) / (a.x - b.x)) ≤
          Max.max a.x b.x := by
    intro y h1 h2 hs
    exact candidate_between a b y hne hs (hstraddle y h1 h2).1 (hstraddle y h1 h2).2
  refine ⟨⟨(a.y - b.y) / (a.x - b.x), a.y - (a.y - b.y) / (a.x - b.x) * a.x, ?_, ?_, ?_, ?_, ?_,
    hbetween, ?_⟩, ?_⟩
  · simp [buildFunctionParameters, hne]
  · simp [buildFunctionParameters, hne]
  · simp [buildFunctionParameters, hne]
  · ring
  · field_simp
    ring
  · intro s c ha hb y h1 h2 hs rest results
    obtain ⟨hn1, hn2⟩ := hstraddle y h1 h2
    obtain ⟨hlo, hhi⟩ := hbetween y h1 h2 hs
    have hmin : (calculateMinMaxCoordinates s c).minX ≤ Min.min a.x b.x :=
      le_min (extrema_x_bounds s c a ha).1 (extrema_x_bounds s c b hb).1
    have hmax : Max.max a.x b.x ≤ (calculateMinMaxCoordinates s c).maxX :=
      max_le (extrema_x_bounds s c a ha).2 (extrema_x_bounds s c b hb).2
    have hskip : ¬ ((a.y < y ∧ b.y < y) ∨ (a.y > y ∧ b.y > y)) := not_or.mpr ⟨hn1, hn2⟩
    have hfilter :
        (y - (a.y - (a.y - b.y) / (a.x - b.x) * a.x)) / ((a.y - b.y) / (a.x - b.x)) ≥
            (calculateMinMaxCoordinates s c).minX ∧
          (y - (a.y - (a.y - b.y) / (a.x - b.x) * a.x)) / ((a.y - b.y) / (a.x - b.x)) ≤
            (calculateMinMaxCoordinates s c).maxX :=
      ⟨le_trans hmin hlo, le_trans hhi hmax⟩
    rw [scanSegments]
    simp only [buildFunctionParameters, hne, if_false, hskip, Bool.false_eq_true, false_and,
      Option.some.injEq, hs, hfilter, and_self, if_true]
  · intro slope base hslope hbase minX maxX y h1 h2 hs rest results
    obtain ⟨hn1, hn2⟩ := hstraddle y h1 h2
    have hskip : ¬ ((a.y < y ∧ b.y < y) ∨ (a.y > y ∧ b.y > y)) := not_or.mpr ⟨hn1, hn2⟩
    by_cases hv : rnd (a.x - b.x) = 0
    · simp [buildFunctionParametersRounded, hv] at hslope
    · simp only [buildFunctionParametersRounded, hv, if_false, Option.some.injEq] at hslope hbase
      subst hslope
      subst hbase
      rw [scanSegmentsRounded]
      simp only [buildFunctionParametersRounded, hv, if_false, hskip, Bool.false_eq_true,
        false_and, Option.some.injEq, hs, ge_iff_le]

/-- C22 on doubles for the segment from (16,6) to (1,46), a side of the quadrilateral
(16,6), (32,31), (37,41), (1,46). -/
theorem C22_edge_function_and_filter_witness :
    (16 : ℚ) ≠ 1 ∧
    ((∃ slope base : ℚ,
      (buildFunctionParameters ⟨16, 6⟩ ⟨1, 46⟩).slope = some slope ∧
      (buildFunctionParameters ⟨16, 6⟩ ⟨1, 46⟩).base = some base ∧
      slope * 16 + base = 6 ∧ slope * 1 + base = 46) ∧
    (∀ (rest : List FunctionParameters) (results : List ℚ),
      scanSegmentsRounded roundDouble 1 37 46
          (buildFunctionParametersRounded roundDouble ⟨16, 6⟩ ⟨1, 46⟩ :: rest) results =
        if (1 : ℚ) ≤ roundDouble (roundDouble (46 - 6849224433292629 / 140737488355328) /
              (-6004799503160661 / 2251799813685248)) ∧
            roundDouble (roundDouble (46 - 6849224433292629 / 140737488355328) /
              (-6004799503160661 / 2251799813685248)) ≤ 37 then
          scanSegmentsRounded roundDouble 1 37 46 rest
            (results ++ [roundDouble (roundDouble (46 - 6849224433292629 / 140737488355328) /
              (-6004799503160661 / 2251799813685248))])
        else scanSegmentsRounded roundDouble 1 37 46 rest results)) := by
  have h := C22_edge_function_and_filter roundDouble ⟨16, 6⟩ ⟨1, 46⟩ (by norm_num)
  obtain ⟨⟨slope, base, _, hs, hb, h1, h2, _, _⟩, hr⟩ := h
  refine ⟨by norm_num, ⟨slope, base, hs, hb, h1, h2⟩, ?_⟩
  intro rest results
  exact hr (-6004799503160661 / 2251799813685248) (6849224433292629 / 140737488355328)
    (by decide!) (by decide!) 1 37 46 (by norm_num) (by norm_num) (by norm_num) rest results

end AlmostAmbilight
